import Mathlib

/-!
# Verification of the dom-to-pptx conversion pipeline

A shallow embedding, in Lean 4, of the parts of the `dom-to-pptx` repository
that the specification's claims are about:

* the JS string/number primitives the code relies on (`parseFloat`, `parseInt`,
  `String.prototype.trim`, the regular expressions actually used, `btoa`);
* color parsing (`src/color.js` / `src/utils.js` `parseColor`), with the
  browser canvas color-normalization modelled as an explicit environment;
* border classification (`getBorderInfo`), radius legalization
  (`generateCustomShapeSVG` / `getProcessedImage`), shadow conversion
  (`getVisibleShadow`), table cell background resolution
  (`src/table.js` `extractTableData`);
* the slide pipeline of `src/index.js`: the synchronous `collect` traversal,
  `prepareRenderItem` with its full branch cascade, the deferred-job phase,
  and the final filter-and-sort handed to the document builder.

JS numbers are modelled by `ℚ` (exact arithmetic; the source's floating point
is idealized).  Browser-supplied data (computed styles, bounding rectangles,
canvas readback, the results of asynchronous image production) are explicit
inputs.  `Math.random()` (used for SVG clip-path ids) is modelled by an
explicit stream of identifier strings.
-/

namespace DomToPptx

/-! ## JS primitives -/

/-- Whitespace characters recognised by JS `trim` / numeric parsing
(ASCII subset, which is all that computed styles contain). -/
def isWs (c : Char) : Bool :=
  c = ' ' || c = '\t' || c = '\n' || c = '\r' || c = '\x0b' || c = '\x0c'

def isDigitCh (c : Char) : Bool := '0' ≤ c && c ≤ '9'

/-- Characters matched by the character class `[\d.]`. -/
def isNumCh (c : Char) : Bool := isDigitCh c || c = '.'

def isHexCh (c : Char) : Bool :=
  isDigitCh c || ('a' ≤ c && c ≤ 'f') || ('A' ≤ c && c ≤ 'F')

def ofChars (l : List Char) : String := ⟨l⟩

/-- JS `String.prototype.trim` (ASCII whitespace). -/
def sTrim (s : String) : String :=
  ofChars ((s.data.dropWhile isWs).reverse.dropWhile isWs).reverse

def sTrimStart (s : String) : String := ofChars (s.data.dropWhile isWs)

def sTrimEnd (s : String) : String :=
  ofChars (s.data.reverse.dropWhile isWs).reverse

def toUpperStr (s : String) : String := ofChars (s.data.map Char.toUpper)

def toLowerStr (s : String) : String := ofChars (s.data.map Char.toLower)

/-- `l` starts with the pattern `p`. -/
def startsWithL : List Char → List Char → Bool
  | _, [] => true
  | [], _ :: _ => false
  | a :: as, b :: bs => a = b && startsWithL as bs

def sStartsWith (s pat : String) : Bool := startsWithL s.data pat.data

/-- JS `String.prototype.includes`. -/
def containsL : List Char → List Char → Bool
  | l, pat =>
    startsWithL l pat ||
      match l with
      | [] => false
      | _ :: t => containsL t pat

def sIncludes (s pat : String) : Bool := containsL s.data pat.data

def digitVal (c : Char) : ℕ := c.toNat - 48

def natOfDigits (l : List Char) : ℕ :=
  l.foldl (fun a c => a * 10 + digitVal c) 0

def fracOfDigits (l : List Char) : ℚ :=
  l.foldr (fun c a => (a + digitVal c) / 10) 0

/-- The numeric-prefix part of JS `parseFloat`, applied after sign handling:
an optional integer part, an optional `'.'` with an optional fractional part,
requiring at least one digit overall; everything after the longest such prefix
is ignored.  (Exponent forms never occur in computed CSS values and are not
modelled.)  `none` models `NaN`. -/
def parseFloatCore (l : List Char) : Option ℚ :=
  let intPart := l.takeWhile isDigitCh
  let rest := l.dropWhile isDigitCh
  match rest with
  | '.' :: r2 =>
    let fracPart := r2.takeWhile isDigitCh
    if intPart.isEmpty && fracPart.isEmpty then none
    else some ((natOfDigits intPart : ℚ) + fracOfDigits fracPart)
  | _ => if intPart.isEmpty then none else some (natOfDigits intPart)

/-- JS `parseFloat` (`none` = `NaN`). -/
def jsParseFloat (s : String) : Option ℚ :=
  match s.data.dropWhile isWs with
  | '-' :: r => (parseFloatCore r).map Neg.neg
  | '+' :: r => parseFloatCore r
  | l => parseFloatCore l

/-- The idiom `parseFloat(x) || 0`: `NaN` (and `0` itself) become `0`. -/
def pf0 (s : String) : ℚ := (jsParseFloat s).getD 0

/-- JS `parseInt(x)` with radix 10 (`none` = `NaN`). -/
def jsParseInt (s : String) : Option ℤ :=
  match s.data.dropWhile isWs with
  | '-' :: r =>
    let d := r.takeWhile isDigitCh
    if d.isEmpty then none else some (-(natOfDigits d : ℤ))
  | '+' :: r =>
    let d := r.takeWhile isDigitCh
    if d.isEmpty then none else some (natOfDigits d)
  | l =>
    let d := l.takeWhile isDigitCh
    if d.isEmpty then none else some (natOfDigits d)

def hexDigitVal (c : Char) : ℕ :=
  if isDigitCh c then digitVal c
  else if 'a' ≤ c && c ≤ 'f' then c.toNat - 87
  else c.toNat - 55

def hexValAux (a : ℕ) : List Char → ℕ
  | [] => a
  | c :: t => hexValAux (a * 16 + hexDigitVal c) t

/-- Value of a string of hexadecimal digits (used for `parseInt(s, 16)` on
browser-produced 2-digit alpha components). -/
def hexVal (l : List Char) : ℕ := hexValAux 0 l

/-- The maximal runs matched by the global regex `/[\d.]+/g`. -/
def numberRunsAux : List Char → List Char → List String
  | [], acc => if acc.isEmpty then [] else [ofChars acc.reverse]
  | c :: t, acc =>
    if isNumCh c then numberRunsAux t (c :: acc)
    else if acc.isEmpty then numberRunsAux t []
    else ofChars acc.reverse :: numberRunsAux t []

def numberRuns (s : String) : List String := numberRunsAux s.data []

/-- Hexadecimal digit characters, lowercase — as produced by JS
`Number.prototype.toString(16)`. -/
def hexDigitChar (n : ℕ) : Char :=
  (("0123456789abcdef").data.getD n '0')

/-- Digit list of `n` in base 16, most significant first
(JS `n.toString(16)` for a nonnegative integer). -/
def hexDigits (n : ℕ) : List Char :=
  if h : n < 16 then [hexDigitChar n]
  else hexDigits (n / 16) ++ [hexDigitChar (n % 16)]
  termination_by n
  decreasing_by exact Nat.div_lt_self (by omega) (by norm_num)

def natToHexStr (n : ℕ) : String := ofChars (hexDigits n)

/-- `((1<<24) + (r<<16) + (g<<8) + b).toString(16).slice(1).toUpperCase()` —
the 6-digit hex encoding used throughout `parseColor`. -/
def rgbHex6 (r g b : ℕ) : String :=
  toUpperStr (ofChars ((hexDigits (2 ^ 24 + r * 2 ^ 16 + g * 2 ^ 8 + b)).drop 1))

/-! ### base64 (`btoa`) -/

def b64char (n : ℕ) : Char :=
  (("ABCDEFGHIJKLMNOPQRSTUVWXYZabcdefghijklmnopqrstuvwxyz0123456789+/").data.getD n 'A')

/-- `btoa` on a Latin-1 string (all strings fed to it here are ASCII). -/
def btoaGo : List Char → List Char
  | [] => []
  | [a] =>
    let x := a.toNat % 256
    [b64char (x / 4), b64char (x % 4 * 16), '=', '=']
  | [a, b] =>
    let x := a.toNat % 256
    let y := b.toNat % 256
    [b64char (x / 4), b64char (x % 4 * 16 + y / 16), b64char (y % 16 * 4), '=']
  | a :: b :: c :: t =>
    let x := a.toNat % 256
    let y := b.toNat % 256
    let z := c.toNat % 256
    b64char (x / 4) :: b64char (x % 4 * 16 + y / 16) ::
      b64char (y % 16 * 4 + z / 64) :: b64char (z % 64) :: btoaGo t

def btoa (s : String) : String := ofChars (btoaGo s.data)

/-- Serialization of a model number into generated SVG markup (the model's
counterpart of JS number-to-string interpolation; exact rationals are printed
as `num` or `num/den`). -/
def qToStr (q : ℚ) : String :=
  if q.den = 1 then toString q.num else toString q.num ++ "/" ++ toString q.den

/-- JS `Math.round` (round half toward `+∞`). -/
def jsRound (q : ℚ) : ℤ := ⌊q + 1 / 2⌋

/-- JS `Math.floor`. -/
def jsFloor (q : ℚ) : ℤ := ⌊q⌋

/-! ## Color parsing — `parseColor` (src/color.js, and identically src/utils.js)

The browser's canvas 2D context is the external color-normalization
collaborator: assigning `ctx.fillStyle = str` and reading it back yields a
normalized serialization, and for exotic spaces the code paints one pixel and
reads the RGBA bytes back.  Both capabilities are modelled as an explicit
environment. -/

/-- The canvas-context capabilities `parseColor` relies on. -/
structure CanvasEnv where
  /-- `ctx.fillStyle = str; ctx.fillStyle` — the normalized serialization. -/
  norm : String → String
  /-- `fillRect` + `getImageData` readback: the `[r, g, b, a]` bytes of the
  painted pixel. -/
  pixel : String → ℕ × ℕ × ℕ × ℕ

structure ColorPair where
  hex : Option String
  opacity : ℚ
deriving DecidableEq, Repr

def doubleChars (l : List Char) : List Char := l.flatMap (fun c => [c, c])

/-- `parseColor` (src/color.js lines 14–57; src/utils.js lines 340–398).
`str = ""` also stands for the JS `null`/`undefined` falsy guard.
The unreachable `NaN` cases of `parseInt`/`parseFloat` on browser-produced
normalizations default to `0` (JS `ToInt32(NaN) = 0`). -/
def parseColor (env : CanvasEnv) (str : String) : ColorPair :=
  if str = "" || str = "transparent" || sTrim str = "rgba(0, 0, 0, 0)" then
    ⟨none, 0⟩
  else
    let computed := env.norm str
    if sStartsWith computed "#" then
      let hex0 := computed.data.drop 1
      let hex1 := if hex0.length = 3 then doubleChars hex0 else hex0
      let hex2 := if hex1.length = 4 then doubleChars hex1 else hex1
      if hex2.length = 8 then
        ⟨some (toUpperStr (ofChars (hex2.take 6))), (hexVal (hex2.drop 6) : ℚ) / 255⟩
      else
        ⟨some (toUpperStr (ofChars hex2)), 1⟩
    else if sStartsWith computed "rgb" && (numberRuns computed).length ≥ 3 then
      match numberRuns computed with
      | m0 :: m1 :: m2 :: rest =>
        let r := ((jsParseInt m0).getD 0).toNat
        let g := ((jsParseInt m1).getD 0).toNat
        let b := ((jsParseInt m2).getD 0).toNat
        let a : ℚ := match rest with
          | [] => 1
          | m3 :: _ => (jsParseFloat m3).getD 0
        ⟨some (rgbHex6 r g b), a⟩
      | _ => ⟨none, 0⟩ -- unreachable given the length guard
    else
      let (r, g, b, a255) := env.pixel str
      let a : ℚ := (a255 : ℚ) / 255
      if a = 0 then ⟨none, 0⟩
      else ⟨some (rgbHex6 r g b), a⟩

/-! ## Border classification — `getBorderInfo`
(src/utils.js lines 206–259; src/style.js lines 21–53, identical logic) -/

/-- One computed border side as read by `getBorderInfo`. -/
structure BorderSide where
  width : ℚ
  style : String
  color : Option String
deriving DecidableEq, Repr

structure BorderSides where
  top : BorderSide
  right : BorderSide
  bottom : BorderSide
  left : BorderSide
deriving DecidableEq, Repr

/-- The `options` record of a `uniform` classification. -/
structure LineOpts where
  width : ℚ
  color : Option String
  transparency : ℚ
  dashType : String
deriving DecidableEq, Repr

inductive BorderInfo where
  | none
  | uniform (options : LineOpts)
  | composite (sides : BorderSides)
deriving DecidableEq, Repr

def mapDashType (s : String) : String :=
  if s = "dashed" then "dash" else if s = "dotted" then "dot" else "solid"

/-- The computed style record, with every field the embedded code reads,
as the string values `getComputedStyle` returns. -/
structure CStyle where
  display : String
  visibility : String
  opacity : String
  zIndex : String
  transform : String
  backgroundColor : String
  backgroundImage : String
  backgroundClip : String
  webkitBackgroundClip : String
  borderRadius : String
  borderTopLeftRadius : String
  borderTopRightRadius : String
  borderBottomRightRadius : String
  borderBottomLeftRadius : String
  borderWidth : String
  borderColor : String
  borderTopWidth : String
  borderTopStyle : String
  borderTopColor : String
  borderRightWidth : String
  borderRightStyle : String
  borderRightColor : String
  borderBottomWidth : String
  borderBottomStyle : String
  borderBottomColor : String
  borderLeftWidth : String
  borderLeftStyle : String
  borderLeftColor : String
  boxShadow : String
  filter : String
  overflow : String
  textAlign : String
  verticalAlign : String
  alignItems : String
  justifyContent : String
  paddingTop : String
  paddingRight : String
  paddingBottom : String
  paddingLeft : String
  marginTop : String
  marginBottom : String
  marginLeft : String
  color : String
  fontFamily : String
  fontSize : String
  fontWeight : String
  fontStyle : String
  textDecoration : String
  lineHeight : String
  textTransform : String
  listStyleType : String
  objectFit : String
  objectPosition : String
deriving DecidableEq, Repr

/-- The side records `getBorderInfo` builds from the computed style. -/
def readBorderSides (env : CanvasEnv) (st : CStyle) : BorderSides :=
  { top := ⟨pf0 st.borderTopWidth, st.borderTopStyle, (parseColor env st.borderTopColor).hex⟩
    right := ⟨pf0 st.borderRightWidth, st.borderRightStyle, (parseColor env st.borderRightColor).hex⟩
    bottom := ⟨pf0 st.borderBottomWidth, st.borderBottomStyle, (parseColor env st.borderBottomColor).hex⟩
    left := ⟨pf0 st.borderLeftWidth, st.borderLeftStyle, (parseColor env st.borderLeftColor).hex⟩ }

/-- `getBorderInfo(style, scale)`. -/
def getBorderInfo (env : CanvasEnv) (st : CStyle) (scale : ℚ) : BorderInfo :=
  let s := readBorderSides env st
  let hasAnyBorder := s.top.width > 0 || s.right.width > 0 || s.bottom.width > 0 || s.left.width > 0
  if ¬hasAnyBorder then .none
  else
    let isUniform :=
      s.top.width = s.right.width && s.top.width = s.bottom.width && s.top.width = s.left.width &&
      s.top.style = s.right.style && s.top.style = s.bottom.style && s.top.style = s.left.style &&
      s.top.color = s.right.color && s.top.color = s.bottom.color && s.top.color = s.left.color
    if isUniform then
      .uniform
        { width := s.top.width * (3 / 4) * scale
          color := s.top.color
          transparency := (1 - (parseColor env st.borderTopColor).opacity) * 100
          dashType := mapDashType s.top.style }
    else .composite s

/-! ## Radius legalization
(the clamp block shared verbatim by `generateCustomShapeSVG`, utils.js
lines 300–316, `getProcessedImage`, image-processor.js lines 34–46, and the
border-radius clipping step of `elementToCanvasImage`, index.js lines 334–351)
-/

/-- A JS number that may be `Infinity` (all finite values exact). -/
inductive JNum where
  | fin (q : ℚ)
  | inf
deriving DecidableEq, Repr

def JNum.lt : JNum → JNum → Bool
  | .fin a, .fin b => a < b
  | .fin _, .inf => true
  | .inf, _ => false

def JNum.min2 (a b : JNum) : JNum := if JNum.lt b a then b else a

/-- The expression `a / b || Infinity`: in JS, a zero denominator gives
`±Infinity` (or `NaN` for `0/0`), and `||` replaces the falsy results `0` and
`NaN` by `Infinity`.  So the result is `Infinity` exactly when `b = 0` or the
quotient is `0`. -/
def jsDivOrInf (a b : ℚ) : JNum :=
  if b = 0 then .inf else if a / b = 0 then .inf else .fin (a / b)

structure Radii where
  tl : ℚ
  tr : ℚ
  br : ℚ
  bl : ℚ
deriving DecidableEq, Repr

/-- `Math.min(w/(tl+tr) || Infinity, h/(tr+br) || Infinity,
w/(br+bl) || Infinity, h/(bl+tl) || Infinity)`. -/
def radiiFactor (w h : ℚ) (r : Radii) : JNum :=
  (((jsDivOrInf w (r.tl + r.tr)).min2 (jsDivOrInf h (r.tr + r.br))).min2
      (jsDivOrInf w (r.br + r.bl))).min2 (jsDivOrInf h (r.bl + r.tl))

/-- `if (factor < 1) { tl *= factor; … }` -/
def legalizeRadii (w h : ℚ) (r : Radii) : Radii :=
  match radiiFactor w h r with
  | .fin f => if f < 1 then ⟨r.tl * f, r.tr * f, r.br * f, r.bl * f⟩ else r
  | .inf => r

/-! ## SVG generators (src/utils.js / src/svg.js) -/

/-- `generateCustomShapeSVG(w, h, color, opacity, radii)`
(utils.js lines 300–337): a rounded-rect path with legalized radii, returned
as a base64 SVG data URL. -/
def generateCustomShapeSVG (w h : ℚ) (color : Option String) (opacity : ℚ)
    (radii : Radii) : String :=
  let r := legalizeRadii w h radii
  let path :=
    "\n    M " ++ qToStr r.tl ++ " 0\n    L " ++ qToStr (w - r.tr) ++ " 0\n    A " ++
      qToStr r.tr ++ " " ++ qToStr r.tr ++ " 0 0 1 " ++ qToStr w ++ " " ++ qToStr r.tr ++
      "\n    L " ++ qToStr w ++ " " ++ qToStr (h - r.br) ++ "\n    A " ++ qToStr r.br ++
      " " ++ qToStr r.br ++ " 0 0 1 " ++ qToStr (w - r.br) ++ " " ++ qToStr h ++
      "\n    L " ++ qToStr r.bl ++ " " ++ qToStr h ++ "\n    A " ++ qToStr r.bl ++ " " ++
      qToStr r.bl ++ " 0 0 1 0 " ++ qToStr (h - r.bl) ++ "\n    L 0 " ++ qToStr r.tl ++
      "\n    A " ++ qToStr r.tl ++ " " ++ qToStr r.tl ++ " 0 0 1 " ++ qToStr r.tl ++
      " 0\n    Z\n  "
  let svg :=
    "\n    <svg xmlns=\"http://www.w3.org/2000/svg\" width=\"" ++ qToStr w ++
      "\" height=\"" ++ qToStr h ++ "\" viewBox=\"0 0 " ++ qToStr w ++ " " ++ qToStr h ++
      "\">\n      <path d=\"" ++ path ++ "\" fill=\"#" ++ color.getD "" ++
      "\" fill-opacity=\"" ++ qToStr opacity ++ "\" />\n    </svg>"
  "data:image/svg+xml;base64," ++ btoa svg

/-- `generateCompositeBorderSVG(w, h, radius, sides)`
(utils.js lines 264–295): four clipped side rectangles.  `clipId` models the
`'clip_' + Math.random().toString(36).substr(2, 9)` fresh identifier, supplied
by the caller's randomness stream. -/
def generateCompositeBorderSVG (w h radius : ℚ) (sides : BorderSides)
    (clipId : String) : String :=
  let radius := radius / 2
  let rect (cond : Bool) (s : String) : String := if cond then s else ""
  let borderRects :=
    rect (sides.top.width > 0 && sides.top.color.isSome)
        ("<rect x=\"0\" y=\"0\" width=\"" ++ qToStr w ++ "\" height=\"" ++
          qToStr sides.top.width ++ "\" fill=\"#" ++ sides.top.color.getD "" ++ "\" />") ++
    rect (sides.right.width > 0 && sides.right.color.isSome)
        ("<rect x=\"" ++ qToStr (w - sides.right.width) ++ "\" y=\"0\" width=\"" ++
          qToStr sides.right.width ++ "\" height=\"" ++ qToStr h ++ "\" fill=\"#" ++
          sides.right.color.getD "" ++ "\" />") ++
    rect (sides.bottom.width > 0 && sides.bottom.color.isSome)
        ("<rect x=\"0\" y=\"" ++ qToStr (h - sides.bottom.width) ++ "\" width=\"" ++
          qToStr w ++ "\" height=\"" ++ qToStr sides.bottom.width ++ "\" fill=\"#" ++
          sides.bottom.color.getD "" ++ "\" />") ++
    rect (sides.left.width > 0 && sides.left.color.isSome)
        ("<rect x=\"0\" y=\"0\" width=\"" ++ qToStr sides.left.width ++ "\" height=\"" ++
          qToStr h ++ "\" fill=\"#" ++ sides.left.color.getD "" ++ "\" />")
  let svg :=
    "\n    <svg xmlns=\"http://www.w3.org/2000/svg\" width=\"" ++ qToStr w ++
      "\" height=\"" ++ qToStr h ++ "\" viewBox=\"0 0 " ++ qToStr w ++ " " ++ qToStr h ++
      "\">\n        <defs>\n            <clipPath id=\"" ++ clipId ++
      "\">\n                <rect x=\"0\" y=\"0\" width=\"" ++ qToStr w ++
      "\" height=\"" ++ qToStr h ++ "\" rx=\"" ++ qToStr radius ++ "\" ry=\"" ++
      qToStr radius ++ "\" />\n            </clipPath>\n        </defs>\n        <g clip-path=\"url(#" ++
      clipId ++ ")\">\n            " ++ borderRects ++ "\n        </g>\n    </svg>"
  "data:image/svg+xml;base64," ++ btoa svg

/-- `generateBlurredSVG(w, h, color, radius, blurPx)`
(utils.js lines 826–859): blurred rect/ellipse with 3×blur padding. -/
def generateBlurredSVG (w h : ℚ) (color : Option String) (radius blurPx : ℚ) :
    String × ℚ :=
  let padding := blurPx * 3
  let fullW := w + padding * 2
  let fullH := h + padding * 2
  let x := padding
  let y := padding
  let isCircle := radius ≥ min w h / 2 - 1 && |w - h| < 2
  -- JS string interpolation of a `null` color prints "null"
  let colorS := color.getD "null"
  let shapeTag :=
    if isCircle then
      "<ellipse cx=\"" ++ qToStr (x + w / 2) ++ "\" cy=\"" ++ qToStr (y + h / 2) ++
        "\" rx=\"" ++ qToStr (w / 2) ++ "\" ry=\"" ++ qToStr (h / 2) ++ "\" fill=\"#" ++
        colorS ++ "\" filter=\"url(#f1)\" />"
    else
      "<rect x=\"" ++ qToStr x ++ "\" y=\"" ++ qToStr y ++ "\" width=\"" ++ qToStr w ++
        "\" height=\"" ++ qToStr h ++ "\" rx=\"" ++ qToStr radius ++ "\" ry=\"" ++
        qToStr radius ++ "\" fill=\"#" ++ colorS ++ "\" filter=\"url(#f1)\" />"
  let svg :=
    "\n  <svg xmlns=\"http://www.w3.org/2000/svg\" width=\"" ++ qToStr fullW ++
      "\" height=\"" ++ qToStr fullH ++ "\" viewBox=\"0 0 " ++ qToStr fullW ++ " " ++
      qToStr fullH ++ "\">\n    <defs>\n      <filter id=\"f1\" x=\"-50%\" y=\"-50%\" width=\"200%\" height=\"200%\">\n        <feGaussianBlur in=\"SourceGraphic\" stdDeviation=\"" ++
      qToStr blurPx ++ "\" />\n      </filter>\n    </defs>\n    " ++ shapeTag ++ "\n  </svg>"
  ("data:image/svg+xml;base64," ++ btoa svg, padding)

/-! ## Shadow conversion — `getVisibleShadow`
(src/utils.js lines 658–687; src/style.js lines 61–86, identical logic)

The box-shadow string is split by the regex `/,(?![^()]*\))/` (a comma not
followed by `[^()]*\)`), transparent-black layers are skipped, and the first
layer matching
`(rgba?\([^)]+\)|#[0-9a-fA-F]+)\s+(-?[\d.]+)px\s+(-?[\d.]+)px\s+([\d.]+)px`
is converted to polar form. -/

/-- Does the lookahead `[^()]*\)` match at this position? -/
def lookaheadClose : List Char → Bool
  | [] => false
  | '(' :: _ => false
  | ')' :: _ => true
  | _ :: t => lookaheadClose t

/-- `str.split(/,(?![^()]*\))/)`. -/
def shadowSplitAux : List Char → List Char → List String
  | [], acc => [ofChars acc.reverse]
  | ',' :: t, acc =>
    if lookaheadClose t then shadowSplitAux t (',' :: acc)
    else ofChars acc.reverse :: shadowSplitAux t []
  | c :: t, acc => shadowSplitAux t (c :: acc)

def shadowSplit (s : String) : List String := shadowSplitAux s.data []

/-- Match `rgba?\([^)]+\)` at the head of `l`; returns (matched, rest). -/
def matchParenColor (l : List Char) : Option (List Char × List Char) :=
  let go (head : List Char) (rest : List Char) : Option (List Char × List Char) :=
    match rest with
    | '(' :: r =>
      let body := r.takeWhile (fun c => c ≠ ')')
      if body.isEmpty then none
      else
        match r.dropWhile (fun c => c ≠ ')') with
        | ')' :: r3 => some (head ++ '(' :: (body ++ [')']), r3)
        | _ => none
    | _ => none
  if startsWithL l "rgba".data then go "rgba".data (l.drop 4)
  else if startsWithL l "rgb".data then go "rgb".data (l.drop 3)
  else none

/-- Match `#[0-9a-fA-F]+` at the head of `l`. -/
def matchHexColor (l : List Char) : Option (List Char × List Char) :=
  match l with
  | '#' :: r =>
    let run := r.takeWhile isHexCh
    if run.isEmpty then none else some ('#' :: run, r.drop run.length)
  | _ => none

def matchColorTok (l : List Char) : Option (List Char × List Char) :=
  (matchParenColor l).orElse fun _ => matchHexColor l

/-- Require at least one `\s` and skip the run. -/
def skipWs1 (l : List Char) : Option (List Char) :=
  if (l.takeWhile isWs).isEmpty then none else some (l.dropWhile isWs)

/-- Match `-?[\d.]+px` (signed) or `[\d.]+px` (unsigned), returning the
`parseFloat` of the captured group.  (A captured group without digits, like
`"."`, would be `NaN` in JS; browsers never serialize such values and the
model defaults them to `0`.) -/
def matchNumPx (signed : Bool) (l : List Char) : Option (ℚ × List Char) :=
  let (neg, l1) := match l with
    | '-' :: t => if signed then (true, t) else (false, '-' :: t)
    | _ => (false, l)
  let run := l1.takeWhile isNumCh
  if run.isEmpty then none
  else
    match l1.drop run.length with
    | 'p' :: 'x' :: r =>
      some ((jsParseFloat (ofChars (if neg then '-' :: run else run))).getD 0, r)
    | _ => none

/-- The full shadow pattern anchored at the current position:
color, then three `px` lengths. -/
def shadowPatAt (l : List Char) : Option (String × ℚ × ℚ × ℚ) := do
  let (colorTok, r1) ← matchColorTok l
  let r2 ← skipWs1 r1
  let (x, r3) ← matchNumPx true r2
  let r4 ← skipWs1 r3
  let (y, r5) ← matchNumPx true r4
  let r6 ← skipWs1 r5
  let (blur, _) ← matchNumPx false r6
  pure (ofChars colorTok, x, y, blur)

/-- Leftmost (regex-search) match of the shadow pattern. -/
def shadowSearch : List Char → Option (String × ℚ × ℚ × ℚ)
  | [] => none
  | l@(_ :: t) => (shadowPatAt l).orElse fun _ => shadowSearch t

/-- The layer-selection loop of `getVisibleShadow`: trim each layer, skip
layers starting with `rgba(0, 0, 0, 0)`, return the parsed
`(color, dx, dy, blur)` of the first layer the pattern matches. -/
def shadowFirstVisibleIn : List String → Option (String × ℚ × ℚ × ℚ)
  | [] => none
  | s :: rest =>
    let s := sTrim s
    if sStartsWith s "rgba(0, 0, 0, 0)" then shadowFirstVisibleIn rest
    else
      match shadowSearch s.data with
      | some res => some res
      | none => shadowFirstVisibleIn rest

def shadowFirstVisible (shadowStr : String) : Option (String × ℚ × ℚ × ℚ) :=
  if shadowStr = "" || shadowStr = "none" then none
  else shadowFirstVisibleIn (shadowSplit shadowStr)

/-- External transcendental math (`Math.sqrt`/`atan2`/`cos`/`sin`/`π`):
the runtime's floating-point library, supplied as an environment to keep the
pipeline executable.  `atan2deg y x` stands for
`Math.atan2(y, x) * (180 / Math.PI)`; `cosCss`/`sinCss` take the CSS angle in
degrees and stand for `cos/sin(((deg − 90) · π) / 180)`; `radToDeg v` stands
for `v * (180 / Math.PI)`. -/
structure MathEnv where
  sqrt : ℚ → ℚ
  atan2deg : ℚ → ℚ → ℚ
  radToDeg : ℚ → ℚ
  cosCss : ℚ → ℚ
  sinCss : ℚ → ℚ

/-- The shadow descriptor returned by `getVisibleShadow`. -/
structure ShadowOpts where
  type : String
  angle : ℚ
  blur : ℚ
  offset : ℚ
  color : String
  opacity : ℚ
deriving DecidableEq, Repr

/-- `getVisibleShadow(shadowStr, scale)` as run by the pipeline (polar step
through the runtime math environment). -/
def getVisibleShadow (menv : MathEnv) (cenv : CanvasEnv) (shadowStr : String)
    (scale : ℚ) : Option ShadowOpts :=
  (shadowFirstVisible shadowStr).map fun (colorStr, x, y, blur) =>
    let distance := menv.sqrt (x * x + y * y)
    let angle0 := menv.atan2deg y x
    let angle := if angle0 < 0 then angle0 + 360 else angle0
    let colorObj := parseColor cenv colorStr
    { type := "outer"
      angle := angle
      blur := blur * (3 / 4) * scale
      offset := distance * (3 / 4) * scale
      color := colorObj.hex.getD "000000"
      opacity := colorObj.opacity }

/-! ### The polar conversion under exact real semantics (for verification) -/

/-- `Math.atan2 y x` under exact real semantics. -/
noncomputable def atan2R (y x : ℝ) : ℝ :=
  if 0 < x then Real.arctan (y / x)
  else if x < 0 then
    (if 0 ≤ y then Real.arctan (y / x) + Real.pi else Real.arctan (y / x) - Real.pi)
  else -- x = 0
    (if 0 < y then Real.pi / 2 else if y < 0 then -(Real.pi / 2) else 0)

/-- `Math.atan2(y, x) * (180 / Math.PI)` then the `if (angle < 0) angle += 360`
normalization, under exact real semantics. -/
noncomputable def shadowAngleDeg (x y : ℚ) : ℝ :=
  let a := atan2R (y : ℝ) (x : ℝ) * (180 / Real.pi)
  if a < 0 then a + 360 else a

/-- `Math.sqrt(x*x + y*y)` under exact real semantics. -/
noncomputable def shadowDistance (x y : ℚ) : ℝ :=
  Real.sqrt ((x : ℝ) * x + (y : ℝ) * y)

/-! ## Soft edges, rotation, padding
(`getSoftEdges`, `getRotation`, `getPadding` — src/utils.js) -/

/-- Match `blur\(([\d.]+)px\)` at the current position. -/
def blurPatAt (l : List Char) : Option ℚ :=
  if startsWithL l "blur(".data then
    let r := l.drop 5
    let run := r.takeWhile isNumCh
    if run.isEmpty then none
    else
      match r.drop run.length with
      | 'p' :: 'x' :: ')' :: _ => some ((jsParseFloat (ofChars run)).getD 0)
      | _ => none
  else none

def blurSearch : List Char → Option ℚ
  | [] => none
  | l@(_ :: t) => (blurPatAt l).orElse fun _ => blurSearch t

/-- `getSoftEdges(filterStr, scale)` (utils.js lines 410–415). -/
def getSoftEdges (filterStr : String) (scale : ℚ) : Option ℚ :=
  if filterStr = "" || filterStr = "none" then none
  else (blurSearch filterStr.data).map fun b => b * (3 / 4) * scale

/-- `getRotation(transformStr)` (utils.js lines 547–554). -/
def getRotation (menv : MathEnv) (transformStr : String) : ℚ :=
  if transformStr = "" || transformStr = "none" then 0
  else
    let afterParen := (transformStr.splitOn "(").getD 1 ""
    let inner := (afterParen.splitOn ")").getD 0 ""
    let values := inner.splitOn ","
    if values.length < 4 then 0
    else
      let a := (jsParseFloat (values.getD 0 "")).getD 0
      let b := (jsParseFloat (values.getD 1 "")).getD 0
      (jsRound (menv.atan2deg b a) : ℚ)

/-- `getPadding(style, scale)` — `[top, right, bottom, left]` in inches. -/
def getPadding (st : CStyle) (scale : ℚ) : List ℚ :=
  [pf0 st.paddingTop * (1 / 96) * scale,
   pf0 st.paddingRight * (1 / 96) * scale,
   pf0 st.paddingBottom * (1 / 96) * scale,
   pf0 st.paddingLeft * (1 / 96) * scale]

/-! ## Gradient helpers
(`getGradientFallbackColor` — src/color.js lines 63–89;
`generateGradientSVG` — src/utils.js lines 692–824) -/

/-- Find the first occurrence of `pat`; return the suffix just after it. -/
def findAfter : List Char → List Char → Option (List Char)
  | l, pat =>
    if startsWithL l pat then some (l.drop pat.length)
    else
      match l with
      | [] => none
      | _ :: t => findAfter t pat

/-- The greedy group of `/xxx\((.*)\)/`: everything after the first
`xxx(` up to the *last* `)`. -/
def greedyParenGroup (s : String) (fname : String) : Option String :=
  (findAfter s.data (fname ++ "(").data).bind fun suffix =>
    let rev := suffix.reverse.dropWhile (fun c => c ≠ ')')
    match rev with
    | ')' :: content => some (ofChars content.reverse)
    | _ => none

/-- The manual top-level-comma split of `getGradientFallbackColor`
(intermediate parts pushed trimmed; the final part only when nonempty). -/
def splitDepthAux : List Char → List Char → ℤ → List String
  | [], cur, _ => if cur.isEmpty then [] else [sTrim (ofChars cur.reverse)]
  | c :: t, cur, depth =>
    let depth := if c = '(' then depth + 1 else depth
    let depth := if c = ')' then depth - 1 else depth
    if c = ',' && depth = 0 then sTrim (ofChars cur.reverse) :: splitDepthAux t [] depth
    else splitDepthAux t (c :: cur) depth

def splitDepth (s : String) : List String := splitDepthAux s.data [] 0

/-- `/^(to\s|[\d\.]+(deg|rad|turn|grad))/.test(part)`. -/
def isDirectionPart (p : String) : Bool :=
  (startsWithL p.data "to".data &&
    (match p.data.drop 2 with | c :: _ => isWs c | [] => false)) ||
  (let run := p.data.takeWhile isNumCh
   !run.isEmpty &&
     (["deg", "rad", "turn", "grad"].any fun u =>
       startsWithL (p.data.drop run.length) u.data))

/-- Is `tok` a full match of `-?[\d.]+(unit)?` for the given unit list? -/
def isNumUnitToken (units : List String) (tok : List Char) : Bool :=
  let t := match tok with | '-' :: r => r | _ => tok
  let run := t.takeWhile isNumCh
  let rest := t.drop run.length
  !run.isEmpty && (rest.isEmpty || units.any fun u => rest = u.data)

/-- Split `p` at the match of `/\s+(-?[\d.]+(unit)?)$/`: since the number
token cannot contain whitespace, the match — if any — removes exactly the
final whitespace run and the final token.  Returns `(head, token)` when the
pattern matches. -/
def splitTrailingNum (units : List String) (p : String) :
    Option (String × String) :=
  let rev := p.data.reverse
  let tokRev := rev.takeWhile (fun c => ¬ isWs c)
  let restRev := rev.drop tokRev.length
  match restRev with
  | c :: _ =>
    if isWs c && isNumUnitToken units tokRev.reverse then
      some (ofChars (restRev.dropWhile isWs).reverse, ofChars tokRev.reverse)
    else none
  | [] => none

/-- `getGradientFallbackColor(bgImage)`. -/
def getGradientFallbackColor (bgImage : String) : Option String :=
  if bgImage = "" || bgImage = "none" then none
  else
    match greedyParenGroup bgImage "gradient" with
    | none => none
    | some content =>
      let parts := splitDepth content
      let rec firstColor : List String → Option String
        | [] => none
        | part :: rest =>
          if isDirectionPart part then firstColor rest
          else
            let colorPart :=
              match splitTrailingNum ["%", "px", "em", "rem", "ch", "vh", "vw"] part with
              | some (head, _) => head
              | none => part
            if colorPart = "" then firstColor rest else some colorPart
      firstColor parts

/-- `(n).toFixed(1)` for the model's exact rationals. -/
def qToFixed1 (q : ℚ) : String :=
  let n := jsRound (q * 10)
  let sign := if n < 0 then "-" else ""
  let m := n.natAbs
  sign ++ toString (m / 10) ++ "." ++ toString (m % 10)

/-- The gradient-direction keyword switch: given the keyword after `to `,
returns `(x1, y1, x2, y2)` starting from the defaults. -/
def gradientKeywordCoords (direction : String) : String × String × String × String :=
  if direction = "top" then ("0%", "100%", "0%", "0%")
  else if direction = "bottom" then ("0%", "0%", "0%", "100%")
  else if direction = "left" then ("100%", "0%", "0%", "100%")
  else if direction = "right" then ("0%", "0%", "100%", "100%")
  else if direction = "top right" then ("0%", "100%", "100%", "0%")
  else if direction = "top left" then ("100%", "100%", "0%", "0%")
  else if direction = "bottom right" then ("0%", "0%", "100%", "100%")
  else if direction = "bottom left" then ("100%", "0%", "0%", "100%")
  else ("0%", "0%", "0%", "100%")

/-- One processed `<stop>` of `generateGradientSVG`. -/
def gradientStopXML (stopCount : ℕ) (idx : ℕ) (part : String) : String :=
  let defOffset :=
    if stopCount ≤ 1 then "NaN%"
    else toString (jsRound ((idx : ℚ) / ((stopCount : ℚ) - 1) * 100)) ++ "%"
  let (color, offset) :=
    match splitTrailingNum ["%", "px"] part with
    | some (head, tok) => (head, tok)
    | none => (part, defOffset)
  let (color, opacity) :=
    if sIncludes color "rgba" then
      match numberRuns color with
      | r :: g :: b :: a :: _ =>
        ("rgb(" ++ r ++ "," ++ g ++ "," ++ b ++ ")", a)
      | _ => (color, "1")
    else (color, "1")
  "<stop offset=\"" ++ offset ++ "\" stop-color=\"" ++ sTrim color ++
    "\" stop-opacity=\"" ++ opacity ++ "\"/>"

/-- `generateGradientSVG(w, h, bgString, radius, border)`. -/
def generateGradientSVG (menv : MathEnv) (w h : ℚ) (bgString : String)
    (radius : ℚ) (border : Option (String × ℚ)) : Option String :=
  match greedyParenGroup bgString "linear-gradient" with
  | none => none
  | some content =>
    let parts := (shadowSplit content).map sTrim
    if parts.length < 2 then none
    else
      let firstPart := toLowerStr (parts.getD 0 "")
      let defaults := ("0%", "0%", "0%", "100%")
      let (coords, stopsStartIndex) :=
        if sStartsWith firstPart "to " then
          (gradientKeywordCoords (sTrim (ofChars (firstPart.data.drop 3))), 1)
        else if
            -- `^-?[\d.]+(deg|rad|turn|grad)$` (full match, unit required)
            (let t := match firstPart.data with | '-' :: r => r | l => l
             let run := t.takeWhile isNumCh
             !run.isEmpty &&
               ["deg", "rad", "turn", "grad"].any fun u => t.drop run.length = u.data) then
          match jsParseFloat firstPart with
          | some val =>
            let deg := if sIncludes firstPart "rad" then menv.radToDeg val else val
            let cos := menv.cosCss deg
            let sin := menv.sinCss deg
            ((qToFixed1 (50 - sin * 50) ++ "%", qToFixed1 (50 + cos * 50) ++ "%",
              qToFixed1 (50 + sin * 50) ++ "%", qToFixed1 (50 - cos * 50) ++ "%"), 1)
          | none => (defaults, 1)
        else (defaults, 0)
      let (x1, y1, x2, y2) := coords
      let stopParts := parts.drop stopsStartIndex
      let stopsXML := String.join
        ((stopParts.enum.map fun (i, p) => gradientStopXML stopParts.length i p))
      let strokeAttr :=
        match border with
        | some (c, bw) => "stroke=\"#" ++ c ++ "\" stroke-width=\"" ++ qToStr bw ++ "\""
        | none => ""
      let svg :=
        "\n      <svg xmlns=\"http://www.w3.org/2000/svg\" width=\"" ++ qToStr w ++
          "\" height=\"" ++ qToStr h ++ "\" viewBox=\"0 0 " ++ qToStr w ++ " " ++
          qToStr h ++ "\">\n          <defs>\n            <linearGradient id=\"grad\" x1=\"" ++
          x1 ++ "\" y1=\"" ++ y1 ++ "\" x2=\"" ++ x2 ++ "\" y2=\"" ++ y2 ++
          "\">\n              " ++ stopsXML ++
          "\n            </linearGradient>\n          </defs>\n          <rect x=\"0\" y=\"0\" width=\"" ++
          qToStr w ++ "\" height=\"" ++ qToStr h ++ "\" rx=\"" ++ qToStr radius ++
          "\" ry=\"" ++ qToStr radius ++ "\" fill=\"url(#grad)\" " ++ strokeAttr ++
          " />\n      </svg>"
      some ("data:image/svg+xml;base64," ++ btoa svg)

/-! ## Typography — `getTextStyle` (src/utils.js lines 417–474) -/

/-- A bullet value attached to a list text run. -/
inductive BulletVal where
  | number (indent : Option ℚ)
  | coded (code : String) (color : String) (fontSize : Option ℚ) (indent : Option ℚ)
deriving DecidableEq, Repr

/-- Options of one text run.  Fields that JS leaves `undefined` are `none`;
`fontSize = none` models `NaN`. -/
structure TextOpts where
  color : Option String
  fontFace : Option String
  fontSize : Option ℚ
  bold : Option Bool
  italic : Option Bool
  underline : Option Bool
  lineSpacing : Option ℚ
  paraSpaceBefore : Option ℚ
  paraSpaceAfter : Option ℚ
  highlight : Option String
  breakLine : Bool
  bullet : Option BulletVal
deriving DecidableEq, Repr

def emptyTextOpts : TextOpts :=
  ⟨none, none, none, none, none, none, none, none, none, none, false, none⟩

/-- `getTextStyle(style, scale)`. -/
def getTextStyle (cenv : CanvasEnv) (st : CStyle) (scale : ℚ) : TextOpts :=
  let colorObj0 := parseColor cenv st.color
  let bgClip := if st.webkitBackgroundClip ≠ "" then st.webkitBackgroundClip
                else st.backgroundClip
  let colorObj :=
    if colorObj0.opacity = 0 && bgClip = "text" then
      match getGradientFallbackColor st.backgroundImage with
      | some fb => parseColor cenv fb
      | none => colorObj0
    else colorObj0
  let fontSizePx := jsParseFloat st.fontSize
  let lhStr := st.lineHeight
  let lineSpacing : Option ℚ :=
    if lhStr ≠ "" && lhStr ≠ "normal" then
      let lhPx0 := jsParseFloat lhStr
      let isMultiplier := ¬ lhStr.data.isEmpty && lhStr.data.all isNumCh
      let lhPx : Option ℚ :=
        if isMultiplier then
          match lhPx0, fontSizePx with
          | some a, some b => some (a * b)
          | _, _ => none
        else lhPx0
      match lhPx with
      | some v => if v > 0 then some (v * (3 / 4) * scale) else none
      | none => none
    else none
  let mt := pf0 st.marginTop
  let mb := pf0 st.marginBottom
  { color := some (colorObj.hex.getD "000000")
    fontFace := some (ofChars (((st.fontFamily.splitOn ",").getD 0 "").data.filter
      fun c => c ≠ '\'' && c ≠ '"'))
    fontSize := fontSizePx.map fun v => (jsFloor (v * (3 / 4) * scale) : ℚ)
    bold := some (match jsParseInt st.fontWeight with
      | some v => decide (v ≥ 600)
      | none => false)
    italic := some (st.fontStyle = "italic")
    underline := some (sIncludes st.textDecoration "underline")
    lineSpacing := lineSpacing
    paraSpaceBefore := if mt > 0 then some (mt * (3 / 4) * scale) else none
    paraSpaceAfter := if mb > 0 then some (mb * (3 / 4) * scale) else none
    highlight := (parseColor cenv st.backgroundColor).hex
    breakLine := false
    bullet := none }

/-! ## The DOM snapshot model

The rendering engine (browser) is the external collaborator that supplies,
per node, the computed style, bounding rectangles, offset sizes, rendered
text, attributes and pseudo-element data.  A `DomNode` is the read-only
snapshot of one node with exactly the queries the pipeline performs. -/

/-- `getBoundingClientRect()` (and, for text nodes, the `Range` rect). -/
structure Rect where
  left : ℚ
  top : ℚ
  width : ℚ
  height : ℚ
deriving DecidableEq, Repr

/-- The per-element data the pipeline reads from the DOM. -/
structure ElemData where
  /-- `tagName` as the DOM reports it (uppercase for HTML elements). -/
  tag : String
  /-- `getAttribute('class') || ''`. -/
  className : String
  /-- other attributes read via `getAttribute` (`rowspan`, `colspan`). -/
  attrs : List (String × String)
  /-- `window.getComputedStyle(node)`. -/
  style : CStyle
  /-- `getComputedStyle(node, '::before').content`. -/
  beforeContent : String
  /-- `getComputedStyle(node, '::after').content`. -/
  afterContent : String
  /-- `getComputedStyle(node, '::marker').color`. -/
  markerColor : String
  /-- `getComputedStyle(node, '::marker').fontSize`. -/
  markerFontSize : String
  rect : Rect
  offsetWidth : ℚ
  offsetHeight : ℚ
  /-- `innerText` (rendered text, supplied by the layout engine). -/
  innerText : String
  /-- `src` (images). -/
  src : String
deriving DecidableEq, Repr

inductive DomNode where
  | elem (data : ElemData) (children : List DomNode)
  | text (value : String) (rect : Rect)

def getAttr (d : ElemData) (name : String) : Option String :=
  (d.attrs.find? fun a => a.1 = name).map (·.2)

def DomNode.brect : DomNode → Rect
  | .elem d _ => d.rect
  | .text _ r => r

def DomNode.isElem : DomNode → Bool
  | .elem _ _ => true
  | .text _ _ => false

/-- The element children (`node.children`). -/
def elemChildren (cs : List DomNode) : List (ElemData × List DomNode) :=
  cs.filterMap fun c =>
    match c with
    | .elem d cc => some (d, cc)
    | .text _ _ => none

mutual
/-- `node.textContent`. -/
def nodeTextContent : DomNode → String
  | .text v _ => v
  | .elem _ cs => listTextContent cs

def listTextContent : List DomNode → String
  | [] => ""
  | c :: rest => nodeTextContent c ++ listTextContent rest
end

mutual
/-- All element descendants in document (pre-)order — the result order of
`querySelectorAll`. -/
def nodeDescendants : DomNode → List (ElemData × List DomNode)
  | .text _ _ => []
  | .elem _ cs => listDescendants cs

def listDescendants : List DomNode → List (ElemData × List DomNode)
  | [] => []
  | .text _ _ :: rest => listDescendants rest
  | .elem d cc :: rest => (d, cc) :: (listDescendants cc ++ listDescendants rest)
end

/-- `isIconElement(node)` (src/index.js lines 384–425). -/
def isIconElement (d : ElemData) : Bool :=
  let tag := toUpperStr d.tag
  if sIncludes tag "-" ||
      ["MATERIAL-ICON", "ICONIFY-ICON", "REMIX-ICON", "ION-ICON", "EVA-ICON",
        "BOX-ICON", "FA-ICON"].contains tag then
    true
  else if tag = "I" || tag = "SPAN" then
    let cls := d.className
    if sIncludes cls "fa-" || sIncludes cls "fas" || sIncludes cls "far" ||
        sIncludes cls "fab" || sIncludes cls "bi-" ||
        sIncludes cls "material-icons" || sIncludes cls "icon" then
      let hasContent (c : String) : Bool :=
        c ≠ "" && c ≠ "none" && c ≠ "normal" && c ≠ "\"\""
      hasContent d.beforeContent || hasContent d.afterContent
    else false
  else false

/-- `isTextContainer(node)` (src/utils.js lines 480–545). -/
def isTextContainer (cenv : CanvasEnv) (d : ElemData) (cs : List DomNode) : Bool :=
  let hasText := (sTrim (listTextContent cs)).length > 0
  if ¬hasText then false
  else
    let children := elemChildren cs
    if children.isEmpty then true
    else
      children.all fun (el, elCs) =>
        if sIncludes el.tag "-" then false
        else if el.tag = "IMG" || el.tag = "SVG" then false
        else if (el.tag = "I" || el.tag = "SPAN") &&
            (sIncludes el.className "fa-" || sIncludes el.className "fas" ||
              sIncludes el.className "far" || sIncludes el.className "fab" ||
              sIncludes el.className "material-icons" || sIncludes el.className "bi-" ||
              sIncludes el.className "icon") then false
        else
          let isInlineTag :=
            ["SPAN", "B", "STRONG", "EM", "I", "A", "SMALL", "MARK"].contains el.tag
          let isInlineDisplay := sIncludes el.style.display "inline"
          if ¬isInlineTag && ¬isInlineDisplay then false
          else
            let bgColor := parseColor cenv el.style.backgroundColor
            let hasVisibleBg := bgColor.hex.isSome && bgColor.opacity > 0
            let hasBorder := pf0 el.style.borderWidth > 0 &&
              (parseColor cenv el.style.borderColor).opacity > 0
            let hasContent := (sTrim (listTextContent elCs)).length > 0
            if ¬hasContent && (hasVisibleBg || hasBorder) then false
            else true

/-- `isComplexHierarchy(root)` (src/index.js lines 1204–1229): does the list
subtree contain flex/grid list items, media, icons, or nested lists? -/
def isComplexHierarchy (d : ElemData) (cs : List DomNode) : Bool :=
  let bad (el : ElemData) (isRoot : Bool) : Bool :=
    (el.tag = "LI" &&
      (el.style.display = "flex" || el.style.display = "grid" ||
        el.style.display = "inline-flex")) ||
    ["IMG", "SVG", "CANVAS", "VIDEO", "IFRAME"].contains el.tag ||
    isIconElement el ||
    (¬isRoot && (el.tag = "UL" || el.tag = "OL"))
  bad d true || (listDescendants cs).any fun (el, _) => bad el false

/-- `isClippedByParent(node)` (src/utils.js lines 139–150): the ancestor
chain (nearest first, up to but excluding `document.body`) is supplied by the
traversal. -/
def isClippedByParent (chain : List ElemData) : Bool :=
  chain.any fun a => a.style.overflow = "hidden" || a.style.overflow = "clip"

/-! ## Table extraction — `extractTableData` (src/utils.js lines 37–136,
the version the pipeline imports) -/

/-- One side border of a table cell, as `getTableBorder` returns it. -/
structure TableBorder where
  pt : ℚ
  color : String
  style : String
deriving DecidableEq, Repr

/-- `getTableBorder(style, side, scale)` applied to one side's
width/style/color strings. -/
def getTableBorder (cenv : CanvasEnv) (widthStr styleStr colorStr : String)
    (scale : ℚ) : Option TableBorder :=
  let width := pf0 widthStr
  if width = 0 || styleStr = "none" || styleStr = "hidden" then none
  else
    let color := parseColor cenv colorStr
    if color.hex.isNone || color.opacity = 0 then none
    else some ⟨width * (3 / 4) * scale, color.hex.getD "", mapDashType styleStr⟩

structure TableCellOpts where
  color : Option String
  fontFace : Option String
  fontSize : Option ℚ
  bold : Option Bool
  italic : Option Bool
  underline : Option Bool
  fill : Option String
  align : String
  valign : String
  margin : List ℚ
  rowspan : Option ℤ
  colspan : Option ℤ
  borderTop : Option TableBorder
  borderRight : Option TableBorder
  borderBottom : Option TableBorder
  borderLeft : Option TableBorder
deriving DecidableEq, Repr

structure TableCell where
  text : String
  options : TableCellOpts
deriving DecidableEq, Repr

structure TableData where
  rows : List (List TableCell)
  colWidths : List ℚ
deriving DecidableEq, Repr

def isNRTCh (c : Char) : Bool := c = '\n' || c = '\r' || c = '\t'

/-- One step of replacing `[\n\r\t]+` runs by single spaces; the flag records
being inside a run already replaced. -/
def replaceNRTAux : List Char → Bool → List Char
  | [], _ => []
  | c :: t, inRun =>
    if isNRTCh c then
      if inRun then replaceNRTAux t true else ' ' :: replaceNRTAux t true
    else c :: replaceNRTAux t false

/-- `.replace(/[\n\r\t]+/g, ' ')`. -/
def replaceNRT (s : String) : String := ofChars (replaceNRTAux s.data false)

/-- State machine for `\s{2,}` replacement: `none` = normal, `some (some c)` =
one whitespace char pending, `some none` = inside a run already replaced. -/
def collapseWs2Aux : List Char → Option (Option Char) → List Char
  | [], st => match st with | some (some c) => [c] | _ => []
  | c :: t, st =>
    if isWs c then
      match st with
      | none => collapseWs2Aux t (some (some c))
      | some (some _) => ' ' :: collapseWs2Aux t (some none)
      | some none => collapseWs2Aux t (some none)
    else
      match st with
      | some (some p) => p :: c :: collapseWs2Aux t none
      | _ => c :: collapseWs2Aux t none

/-- `.replace(/\s{2,}/g, ' ')` (runs of length 1 keep their original char). -/
def collapseWs2 (s : String) : String := ofChars (collapseWs2Aux s.data none)

/-- `extractTableData(node, scale)`. -/
def extractTableData (cenv : CanvasEnv) (cs : List DomNode) (scale : ℚ) :
    TableData :=
  let trs := (listDescendants cs).filter fun (d, _) => d.tag = "TR"
  let colWidths :=
    match trs with
    | [] => []
    | (_, trCs) :: _ =>
      (elemChildren trCs).map fun (cell, _) => cell.rect.width * (1 / 96) * scale
  let rows := trs.filterMap fun (_, trCs) =>
    let cells := (elemChildren trCs).filter fun (c, _) => c.tag = "TD" || c.tag = "TH"
    let rowData := cells.map fun (cell, _) =>
      let st := cell.style
      let cellText := sTrim (replaceNRT cell.innerText)
      let textStyle := getTextStyle cenv st scale
      let bg := parseColor cenv st.backgroundColor
      let fill := if bg.hex.isSome && bg.opacity > 0 then bg.hex else none
      let align :=
        if st.textAlign = "center" then "center"
        else if st.textAlign = "right" || st.textAlign = "end" then "right"
        else "left"
      let valign :=
        if st.verticalAlign = "middle" then "middle"
        else if st.verticalAlign = "bottom" then "bottom"
        else "top"
      let padding := getPadding st scale
      let margin := padding.map (· * 72)
      let span (name : String) : Option ℤ :=
        match getAttr cell name with
        | some s => match jsParseInt s with
          | some v => if v = 0 then none else some v
          | none => none
        | none => none
      { text := cellText
        options :=
          { color := textStyle.color
            fontFace := textStyle.fontFace
            fontSize := textStyle.fontSize
            bold := textStyle.bold
            italic := textStyle.italic
            underline := textStyle.underline
            fill := fill
            align := align
            valign := valign
            margin := margin
            rowspan := span "rowspan"
            colspan := span "colspan"
            borderTop := getTableBorder cenv st.borderTopWidth st.borderTopStyle st.borderTopColor scale
            borderRight := getTableBorder cenv st.borderRightWidth st.borderRightStyle st.borderRightColor scale
            borderBottom := getTableBorder cenv st.borderBottomWidth st.borderBottomStyle st.borderBottomColor scale
            borderLeft := getTableBorder cenv st.borderLeftWidth st.borderLeftStyle st.borderLeftColor scale } }
    if rowData.isEmpty then none else some rowData
  ⟨rows, colWidths⟩

/-! ### Cell background resolution of src/table.js `extractTableData`
(src/table.js lines 69–79): the cell's own background, falling back up the
ancestor chain when transparent.  An ancestor is modelled as its
`(tagName, computed backgroundColor)` pair, nearest ancestor first. -/

/-- Lines 72–77 of src/table.js: the `while (ancestor && !['TABLE', 'BODY',
'HTML'].includes(ancestor.tagName.toUpperCase()))` walk with the
`if (aBg.hex && aBg.opacity > 0) { bg = aBg; break; }` body. -/
def bgWalk (cenv : CanvasEnv) (bg : ColorPair) :
    List (String × String) → ColorPair
  | [] => bg
  | (tag, abgStr) :: rest =>
    if (["TABLE", "BODY", "HTML"] : List String).contains (toUpperStr tag) then bg
    else
      let aBg := parseColor cenv abgStr
      if aBg.hex.isSome && decide (0 < aBg.opacity) then aBg
      else bgWalk cenv bg rest

/-- Lines 70–78 of src/table.js: parse the cell's own background and walk the
ancestors only when it is transparent. -/
def resolveCellBg (cenv : CanvasEnv) (cellBgStr : String)
    (ancestors : List (String × String)) : ColorPair :=
  let bg := parseColor cenv cellBgStr
  if bg.hex.isNone || bg.opacity = 0 then bgWalk cenv bg ancestors else bg

/-- Line 79 of src/table.js: `const fill = bg.hex && bg.opacity > 0 ?
{ color: bg.hex } : null`. -/
def resolveCellFill (cenv : CanvasEnv) (cellBgStr : String)
    (ancestors : List (String × String)) : Option String :=
  let bg := resolveCellBg cenv cellBgStr ancestors
  if bg.hex.isSome && decide (0 < bg.opacity) then bg.hex else none

/-- Specification-shaped description of the ancestor walk: the first
non-transparent parsed background among the ancestors strictly before the
first `TABLE`/`BODY`/`HTML`. -/
def firstVisibleAncestorBg (cenv : CanvasEnv)
    (ancestors : List (String × String)) : Option ColorPair :=
  ((ancestors.takeWhile fun p =>
      !(["TABLE", "BODY", "HTML"] : List String).contains (toUpperStr p.1)).map
    fun p => parseColor cenv p.2).find?
    fun c => c.hex.isSome && decide (0 < c.opacity)

/-! ## Render queue items (the `RenderItem` data model of src/index.js) -/

inductive ItemType where
  | shape
  | image
  | text
  | table
deriving DecidableEq, Repr

/-- `pptx.ShapeType` constants used by the pipeline. -/
inductive PShapeType where
  | rect
  | ellipse
  | roundRect
deriving DecidableEq, Repr

/-- A fill object: `{color, transparency}`, `{color}` or `{type:'none'}`. -/
structure Fill where
  color : Option String
  transparency : Option ℚ
  ftype : Option String
deriving DecidableEq, Repr

/-- The dynamic options object of a queue item; absent JS properties are
`none`. -/
structure ItemOpts where
  x : ℚ
  y : ℚ
  w : ℚ
  h : ℚ
  rotate : Option ℚ
  data : Option String
  fill : Option Fill
  line : Option LineOpts
  shadow : Option ShadowOpts
  rectRadius : Option ℚ
  shape : Option PShapeType
  align : Option String
  valign : Option String
  inset : Option (List ℚ)
  margin : Option ℚ
  wrap : Option Bool
  autoFit : Option Bool
deriving DecidableEq, Repr

def baseOpts (x y w h : ℚ) : ItemOpts :=
  ⟨x, y, w, h, none, none, none, none, none, none, none, none, none, none, none, none, none⟩

/-- Which validation a deferred job applies to its produced string:
the canvas branch checks `dataUrl && dataUrl.length > 10`, every other branch
checks plain truthiness (`if (processed)`). -/
inductive JobKind where
  | canvasData
  | plainData
deriving DecidableEq, Repr

/-- A queue entry.  A deferred job is modelled by `jobKey = some k`: the job
bound to this item reads the external production result at key `k` (its
node's traversal index) and either fills `options.data` or sets `skip`. -/
structure RenderItem where
  itype : ItemType
  zIndex : ℤ
  domOrder : ℕ
  shapeType : Option PShapeType
  options : ItemOpts
  textParts : List (String × TextOpts)
  tableData : Option TableData
  skip : Bool
  jobKey : Option ℕ
  jobKind : JobKind
deriving DecidableEq, Repr

def mkShapeItem (z : ℤ) (d : ℕ) (st : PShapeType) (o : ItemOpts) : RenderItem :=
  ⟨.shape, z, d, some st, o, [], none, false, none, .plainData⟩

def mkImageItem (z : ℤ) (d : ℕ) (o : ItemOpts) (jobKey : Option ℕ)
    (kind : JobKind) : RenderItem :=
  ⟨.image, z, d, none, o, [], none, false, jobKey, kind⟩

def mkTextItem (z : ℤ) (d : ℕ) (parts : List (String × TextOpts))
    (o : ItemOpts) : RenderItem :=
  ⟨.text, z, d, none, o, parts, none, false, none, .plainData⟩

/-- `createCompositeBorderItems(sides, x, y, w, h, scale, zIndex, domOrder)`
(src/index.js lines 1272–1317; src/element-renderer.js lines 30–45): one thin
rectangle per nonzero side, all at `zIndex + 1` with the node's `domOrder`. -/
def createCompositeBorderItems (sides : BorderSides) (x y w h scale : ℚ)
    (zIndex : ℤ) (domOrder : ℕ) : List RenderItem :=
  let pxToInch : ℚ := 1 / 96
  let mk (o : ItemOpts) : RenderItem := mkShapeItem (zIndex + 1) domOrder .rect o
  (if sides.top.width > 0 then
    [mk { baseOpts x y w (sides.top.width * pxToInch * scale) with
            fill := some ⟨sides.top.color, none, none⟩ }]
   else []) ++
  (if sides.right.width > 0 then
    [mk { baseOpts (x + w - sides.right.width * pxToInch * scale) y
            (sides.right.width * pxToInch * scale) h with
            fill := some ⟨sides.right.color, none, none⟩ }]
   else []) ++
  (if sides.bottom.width > 0 then
    [mk { baseOpts x (y + h - sides.bottom.width * pxToInch * scale) w
            (sides.bottom.width * pxToInch * scale) with
            fill := some ⟨sides.bottom.color, none, none⟩ }]
   else []) ++
  (if sides.left.width > 0 then
    [mk { baseOpts x y (sides.left.width * pxToInch * scale) h with
            fill := some ⟨sides.left.color, none, none⟩ }]
   else [])

/-! ## Configuration and environment -/

structure LayoutConfig where
  rootX : ℚ
  rootY : ℚ
  scale : ℚ
  offX : ℚ
  offY : ℚ
deriving DecidableEq, Repr

structure ListSpacingCfg where
  before : Option ℚ
  after : Option ℚ

structure ListConfigOpt where
  color : Option String
  spacing : Option ListSpacingCfg

structure GlobalOptions where
  listConfig : Option ListConfigOpt
  svgAsVector : Bool

/-- The external world of one conversion pass: the canvas color collaborator,
the runtime float math library, the results of the deferred asynchronous jobs
(keyed by the owning node's traversal index; `none` = the job could not
produce data, by error or empty result), and the `Math.random()` clip-path
identifiers consumed by `generateCompositeBorderSVG` (keyed likewise). -/
structure Ext where
  cenv : CanvasEnv
  menv : MathEnv
  jobs : ℕ → Option String
  rand : ℕ → String

/-! ## List text extraction (`collectListParts`, src/index.js lines 1231–1270) -/

/-- `content.replace(/^['"]|['"]$/g, '')`. -/
def stripEdgeQuotes (s : String) : String :=
  let isQ (c : Char) : Bool := c = '\'' || c = '"'
  let l := match s.data with
    | c :: t => if isQ c then t else c :: t
    | [] => []
  let l2 := match l.reverse with
    | c :: t => if isQ c then t.reverse else l
    | [] => []
  ofChars l2

def updateHead (f : TextOpts → TextOpts) :
    List (String × TextOpts) → List (String × TextOpts)
  | [] => []
  | (t, o) :: r => (t, f o) :: r

def updateLast (f : String × TextOpts → String × TextOpts) :
    List (String × TextOpts) → List (String × TextOpts)
  | [] => []
  | [x] => [f x]
  | x :: r => x :: updateLast f r

mutual
/-- `collectListParts(node, parentStyle, scale)`. -/
def collectListParts (cenv : CanvasEnv) (scale : ℚ) :
    DomNode → CStyle → List (String × TextOpts)
  | .text _ _, _ => []
  | .elem d cs, parentStyle =>
    let content := d.beforeContent
    let beforeParts :=
      if content ≠ "" && content ≠ "none" && content ≠ "normal" && content ≠ "\"\"" then
        let cleanContent := stripEdgeQuotes content
        if sTrim cleanContent ≠ "" then
          [(cleanContent ++ " ", getTextStyle cenv d.style scale)]
        else []
      else []
    beforeParts ++ clpChildren cenv scale cs d.style parentStyle

def clpChildren (cenv : CanvasEnv) (scale : ℚ) :
    List DomNode → CStyle → CStyle → List (String × TextOpts)
  | [], _, _ => []
  | c :: rest, curStyle, parentStyle =>
    (match c with
     | .text v _ =>
       let val := collapseWs2 (replaceNRT v)
       -- `styleToUse`: the current container is always an element here
       if val ≠ "" then [(val, getTextStyle cenv curStyle scale)] else []
     | .elem cd ccs => collectListParts cenv scale (.elem cd ccs) parentStyle) ++
    clpChildren cenv scale rest curStyle parentStyle
end

/-! ## The list branch (src/index.js lines 527–705) -/

/-- Set the `indent` property of a bullet value. -/
def BulletVal.setIndent (pt : ℚ) : BulletVal → BulletVal
  | .number _ => .number (some pt)
  | .coded code color fs _ => .coded code color fs (some pt)

def BulletVal.colorOf : BulletVal → Option String
  | .number _ => none
  | .coded _ c _ _ => some c

def BulletVal.fontSizeOf : BulletVal → Option ℚ
  | .number _ => none
  | .coded _ _ fs _ => fs

/-- The per-`<li>` body of the list branch: bullet resolution, indent, text
part collection, bullet carrier run, paragraph spacing, break line. -/
def listLiParts (cenv : CanvasEnv) (cfg : LayoutConfig) (gopts : GlobalOptions)
    (nodeTag : String) (nodeRect : Rect) (liD : ElemData) (liCs : List DomNode)
    (idx liCount : ℕ) : List (String × TextOpts) :=
  let liStyle := liD.style
  let listStyleType := if liStyle.listStyleType ≠ "" then liStyle.listStyleType else "disc"
  let bullet0 : Option BulletVal :=
    if nodeTag = "OL" || listStyleType = "decimal" then some (.number none)
    else if listStyleType = "none" then none
    else
      let code :=
        if listStyleType = "circle" then "25CB"
        else if listStyleType = "square" then "25A0"
        else "2022"
      match gopts.listConfig.bind (·.color) with
      | some c => some (.coded code ((parseColor cenv c).hex.getD "000000") none none)
      | none =>
        let markerColor := parseColor cenv liD.markerColor
        let finalHex :=
          match markerColor.hex with
          | some hx => hx
          | none =>
            match (parseColor cenv liStyle.color).hex with
            | some hx => hx
            | none => "000000"
        let fsOpt : Option ℚ :=
          match jsParseFloat liD.markerFontSize with
          | some v => if v > 0 then some (v * (3 / 4) * cfg.scale) else none
          | none => none
        some (.coded code finalHex fsOpt none)
  let computedIndentPt := (liD.rect.left - nodeRect.left) * (3 / 4) * cfg.scale
  let bullet := bullet0.map fun b =>
    if computedIndentPt > 0 then b.setIndent computedIndentPt else b
  let parts := collectListParts cenv cfg.scale (.elem liD liCs) liStyle
  if parts.isEmpty then []
  else
    let parts :=
      match bullet with
      | none => parts
      | some b =>
        let firstInfo := (parts.headD ("", emptyTextOpts)).2
        let bulletRun := ("\u200B",
          { firstInfo with
              color := match b.colorOf with | some c => some c | none => firstInfo.color
              fontSize := match b.fontSizeOf with | some f => some f | none => firstInfo.fontSize
              bullet := some b })
        bulletRun :: parts
    let (ptBefore, ptAfter) :=
      match gopts.listConfig.bind (·.spacing) with
      | some sp => (sp.before.getD 0, sp.after.getD 0)
      | none =>
        let mt := pf0 liStyle.marginTop
        let mb := pf0 liStyle.marginBottom
        (if mt > 0 then mt * (3 / 4) * cfg.scale else 0,
         if mb > 0 then mb * (3 / 4) * cfg.scale else 0)
    let parts :=
      if ptBefore > 0 then updateHead (fun o => { o with paraSpaceBefore := some ptBefore }) parts
      else parts
    let parts :=
      if ptAfter > 0 then updateHead (fun o => { o with paraSpaceAfter := some ptAfter }) parts
      else parts
    if idx < liCount - 1 then
      updateLast (fun (t, o) => (t, { o with breakLine := true })) parts
    else parts

/-- The queue items the list branch emits (src/index.js lines 672–704): the
optional background shape at the node's stack order, then the flattened list
text at `zIndex + 1`. -/
def listBranchItems (zIndex : ℤ) (domOrder : ℕ) (x y w h : ℚ)
    (bgColorObj : ColorPair) (listItems : List (String × TextOpts)) :
    List RenderItem :=
  (if bgColorObj.hex.isSome && bgColorObj.opacity > 0 then
    [mkShapeItem zIndex domOrder .rect
      { baseOpts x y w h with fill := some ⟨bgColorObj.hex, none, none⟩ }]
   else []) ++
  [mkTextItem (zIndex + 1) domOrder listItems
    { baseOpts x y w h with
        align := some "left", valign := some "top", margin := some 0,
        autoFit := some false, wrap := some true }]

/-! ## Text payload construction (the `isTextContainer` body of
`prepareRenderItem`, src/index.js lines 925–994) -/

structure TextPayload where
  text : List (String × TextOpts)
  align : String
  valign : String
  inset : List ℚ
deriving DecidableEq, Repr

/-- The child iteration building the text runs: `<br>` handling with
leading/trailing trimming, whitespace normalization, text-transform,
highlight suppression on bare text nodes. -/
def textPayloadParts (cenv : CanvasEnv) (scale : ℚ) (style : CStyle)
    (cs : List DomNode) : List (String × TextOpts) :=
  let n := cs.length
  let step (acc : List (String × TextOpts) × Bool) (ic : ℕ × DomNode) :
      List (String × TextOpts) × Bool :=
    let (parts, trimNext) := acc
    let (index, child) := ic
    let isBR : Bool := match child with
      | .elem cd _ => cd.tag = "BR"
      | .text _ _ => false
    if isBR then
      (updateLast (fun (t, o) => (sTrimEnd t, o)) parts ++
        [("", { emptyTextOpts with breakLine := true })], true)
    else
      let (textVal0, nodeStyle, isTextNode) := match child with
        | .text v _ => (v, style, true)
        | .elem cd ccs => (nodeTextContent (.elem cd ccs), cd.style, false)
      let tv1 := collapseWs2 (replaceNRT textVal0)
      let tv2 := if index = 0 then sTrimStart tv1 else tv1
      let (tv3, trimNext') := if trimNext then (sTrimStart tv2, false) else (tv2, trimNext)
      let tv4 := if index = n - 1 then sTrimEnd tv3 else tv3
      let tv5 :=
        if nodeStyle.textTransform = "uppercase" then toUpperStr tv4
        else if nodeStyle.textTransform = "lowercase" then toLowerStr tv4
        else tv4
      if tv5.length > 0 then
        let textOpts := getTextStyle cenv nodeStyle scale
        let textOpts := if isTextNode && textOpts.highlight.isSome then
            { textOpts with highlight := none }
          else textOpts
        (parts ++ [(tv5, textOpts)], trimNext')
      else (parts, trimNext')
  (cs.enum.foldl step ([], false)).1

/-- Alignment/padding resolution and assembly of the text payload. -/
def buildTextPayload (cenv : CanvasEnv) (scale : ℚ) (style : CStyle)
    (cs : List DomNode) (bgHex : Option String) : Option TextPayload :=
  let textParts := textPayloadParts cenv scale style cs
  if textParts.isEmpty then none
  else
    let align0 := if style.textAlign ≠ "" then style.textAlign else "left"
    let align1 := if align0 = "start" then "left" else align0
    let align2 := if align1 = "end" then "right" else align1
    let valign1 := if style.alignItems = "center" then "middle" else "top"
    let align3 :=
      if style.justifyContent = "center" && sIncludes style.display "flex" then "center"
      else align2
    let pt := pf0 style.paddingTop
    let pb := pf0 style.paddingBottom
    let valign2 := if |pt - pb| < 2 && bgHex.isSome then "middle" else valign1
    let padding :=
      if align3 = "center" && valign2 = "middle" then ([0, 0, 0, 0] : List ℚ)
      else getPadding style scale
    some ⟨textParts, align3, valign2, padding⟩

/-- `textPayload.text[0].options.fontSize = Math.floor(…fontSize) || 12`. -/
def floorFontSizeHead (parts : List (String × TextOpts)) : List (String × TextOpts) :=
  updateHead (fun o =>
    { o with fontSize := some (match o.fontSize with
        | some v => let f : ℚ := jsFloor v; if f = 0 then 12 else f
        | none => 12) }) parts

/-! ## The gradient/blur branch and the standard branch of
`prepareRenderItem` (src/index.js lines 996–1199) -/

/-- Items of the `hasGradient || (softEdge && …)` branch (lines 996–1070):
the background vector asset at the node's stack order, the text overlay at
`zIndex + 1`, and composite border rectangles at `zIndex + 1`. -/
def gradientBranchItems (zIndex : ℤ) (domOrder : ℕ) (rotation x y w h padIn : ℚ)
    (bgData : Option String) (textPayload : Option TextPayload)
    (compositeSides : Option BorderSides) (scale : ℚ) : List RenderItem :=
  (match bgData with
   | some bg =>
     [mkImageItem zIndex domOrder
       { baseOpts (x - padIn) (y - padIn) (w + padIn * 2) (h + padIn * 2) with
           data := some bg, rotate := some rotation } none .plainData]
   | none => []) ++
  (match textPayload with
   | some tp =>
     [mkTextItem (zIndex + 1) domOrder (floorFontSizeHead tp.text)
       { baseOpts x y w h with
           align := some tp.align, valign := some tp.valign, inset := some tp.inset,
           rotate := some rotation, margin := some 0, wrap := some true,
           autoFit := some false }]
   | none => []) ++
  (match compositeSides with
   | some sides => createCompositeBorderItems sides x y w h scale zIndex domOrder
   | none => [])

/-- Items of the standard CSS branch (lines 1071–1199): custom-radius SVG or
shape/text at the node's stack order, plus the composite-border SVG overlay at
`zIndex + 1` (whose payload embeds the freshly generated `clipId`). -/
def stdBranchItems (zIndex : ℤ) (domOrder : ℕ) (rotation x y w h : ℚ)
    (widthPx heightPx : ℚ) (style : CStyle) (bgColorObj : ColorPair)
    (safeOpacity : ℚ) (useSolidFill hasPartialBorderRadius : Bool)
    (borderInfo : BorderInfo) (shadowOpt : Option ShadowOpts) (hasShadow : Bool)
    (textPayload : Option TextPayload) (clipId : String) : List RenderItem :=
  let finalAlpha := safeOpacity * bgColorObj.opacity
  let transparency := (1 - finalAlpha) * 100
  let mainItems :=
    if hasPartialBorderRadius && useSolidFill && textPayload.isNone then
      let shapeSvg := generateCustomShapeSVG widthPx heightPx bgColorObj.hex
        bgColorObj.opacity
        ⟨pf0 style.borderTopLeftRadius, pf0 style.borderTopRightRadius,
          pf0 style.borderBottomRightRadius, pf0 style.borderBottomLeftRadius⟩
      [mkImageItem zIndex domOrder
        { baseOpts x y w h with data := some shapeSvg, rotate := some rotation }
        none .plainData]
    else
      let shapeOpts :=
        { baseOpts x y w h with
            rotate := some rotation
            fill := some (if useSolidFill then ⟨bgColorObj.hex, some transparency, none⟩
                          else ⟨none, none, some "none"⟩)
            line := match borderInfo with
              | .uniform opts => some opts
              | _ => none
            shadow := if hasShadow then shadowOpt else none }
      let minDimension := min widthPx heightPx
      let rawRadius := pf0 style.borderRadius
      let isPercentage := style.borderRadius ≠ "" && sIncludes style.borderRadius "%"
      let radiusPx := if isPercentage then rawRadius / 100 * minDimension else rawRadius
      let isSquare := |widthPx - heightPx| < 1
      let isFullyRound := radiusPx ≥ minDimension / 2
      let (shapeType, shapeOpts) :=
        if isFullyRound && (isPercentage || isSquare) then (PShapeType.ellipse, shapeOpts)
        else if radiusPx > 0 then
          let r0 := radiusPx / minDimension
          let r1 := if r0 > 1 / 2 then 1 / 2 else r0
          let r2 := if minDimension < 100 then r1 * (1 / 4) else r1
          (PShapeType.roundRect, { shapeOpts with rectRadius := some r2 })
        else (PShapeType.rect, shapeOpts)
      match textPayload with
      | some tp =>
        [mkTextItem zIndex domOrder (floorFontSizeHead tp.text)
          { shapeOpts with
              shape := some shapeType, rotate := some rotation,
              align := some tp.align, valign := some tp.valign, inset := some tp.inset,
              margin := some 0, wrap := some true, autoFit := some false }]
      | none =>
        if !hasPartialBorderRadius then [mkShapeItem zIndex domOrder shapeType shapeOpts]
        else []
  mainItems ++
    (match borderInfo with
     | .composite sides =>
       let borderSvgData :=
         generateCompositeBorderSVG widthPx heightPx (pf0 style.borderRadius) sides clipId
       [mkImageItem (zIndex + 1) domOrder
         { baseOpts x y w h with data := some borderSvgData, rotate := some rotation }
         none .plainData]
     | _ => [])

/-! ## `prepareRenderItem` (src/index.js lines 431–1202) -/

structure PrepResult where
  items : List RenderItem
  stopRecursion : Bool

/-- The element part of `prepareRenderItem` (everything after the text-node
branch).  `parent` is `node.parentElement`; `chain` is the ancestor chain
(nearest first, below `document.body`) consulted by `isClippedByParent`. -/
def prepareElem (cenv : CanvasEnv) (menv : MathEnv) (clipId : String)
    (cfg : LayoutConfig) (gopts : GlobalOptions)
    (parent : Option DomNode) (chain : List ElemData)
    (d : ElemData) (cs : List DomNode) (domOrder : ℕ) (effZ : ℤ) :
    Option PrepResult :=
  let style := d.style
  let rect := d.rect
  if rect.width < 1 / 2 || rect.height < 1 / 2 then none
  else
    let zIndex := effZ
    let rotation := getRotation menv style.transform
    let safeOpacity := (jsParseFloat style.opacity).getD 1
    let widthPx := if d.offsetWidth ≠ 0 then d.offsetWidth else rect.width
    let heightPx := if d.offsetHeight ≠ 0 then d.offsetHeight else rect.height
    let unrotatedW := widthPx * (1 / 96) * cfg.scale
    let unrotatedH := heightPx * (1 / 96) * cfg.scale
    let centerX := rect.left + rect.width / 2
    let centerY := rect.top + rect.height / 2
    let x := cfg.offX + (centerX - cfg.rootX) * (1 / 96) * cfg.scale - unrotatedW / 2
    let y := cfg.offY + (centerY - cfg.rootY) * (1 / 96) * cfg.scale - unrotatedH / 2
    let w := unrotatedW
    let h := unrotatedH
    if d.tag = "TABLE" then
      some ⟨[{ itype := .table, zIndex := effZ, domOrder := domOrder,
               shapeType := none,
               options := baseOpts x y unrotatedW unrotatedH,
               textParts := [], tableData := some (extractTableData cenv cs cfg.scale),
               skip := false, jobKey := none, jobKind := .plainData }], true⟩
    else
      -- list branch; falls through when it produces no parts
      let ulResult : Option PrepResult :=
        if (d.tag = "UL" || d.tag = "OL") && !isComplexHierarchy d cs then
          let liChildren := (elemChildren cs).filter fun (c, _) => c.tag = "LI"
          let listItems := liChildren.enum.flatMap fun (i, (liD, liCs)) =>
            listLiParts cenv cfg gopts d.tag rect liD liCs i liChildren.length
          if !listItems.isEmpty then
            let bgColorObj := parseColor cenv style.backgroundColor
            some ⟨listBranchItems zIndex domOrder x y w h bgColorObj listItems, true⟩
          else none
        else none
      match ulResult with
      | some r => some r
      | none =>
        if d.tag = "CANVAS" then
          some ⟨[mkImageItem zIndex domOrder
            { baseOpts x y w h with rotate := some rotation }
            (some domOrder) .canvasData], true⟩
        else if toUpperStr d.tag = "SVG" then
          some ⟨[mkImageItem zIndex domOrder
            { baseOpts x y w h with rotate := some rotation }
            (some domOrder) .plainData], true⟩
        else if d.tag = "IMG" then
          -- radius inheritance from a clipping same-size parent; the radii and
          -- object-fit data are consumed by the external job
          some ⟨[mkImageItem zIndex domOrder
            { baseOpts x y w h with rotate := some rotation }
            (some domOrder) .plainData], true⟩
        else if isIconElement d then
          some ⟨[mkImageItem zIndex domOrder
            { baseOpts x y w h with rotate := some rotation }
            (some domOrder) .plainData], true⟩
        else
          let borderRadiusValue := pf0 style.borderRadius
          let bblr := pf0 style.borderBottomLeftRadius
          let bbrr := pf0 style.borderBottomRightRadius
          let btlr := pf0 style.borderTopLeftRadius
          let btrr := pf0 style.borderTopRightRadius
          let hasPartialBorderRadius :=
            (bblr > 0 && bblr ≠ borderRadiusValue) ||
            (bbrr > 0 && bbrr ≠ borderRadiusValue) ||
            (btlr > 0 && btlr ≠ borderRadiusValue) ||
            (btrr > 0 && btrr ≠ borderRadiusValue) ||
            (borderRadiusValue = 0 && (bblr ≠ 0 || bbrr ≠ 0 || btlr ≠ 0 || btrr ≠ 0))
          let tempBg := parseColor cenv style.backgroundColor
          let isTxt := isTextContainer cenv d cs
          if hasPartialBorderRadius && tempBg.hex.isSome && !isTxt then
            let shapeSvg := generateCustomShapeSVG widthPx heightPx tempBg.hex
              tempBg.opacity ⟨btlr, btrr, bbrr, bblr⟩
            some ⟨[mkImageItem zIndex domOrder
              { baseOpts x y w h with data := some shapeSvg, rotate := some rotation }
              none .plainData], true⟩
          else if hasPartialBorderRadius && isClippedByParent chain then
            let x := x + pf0 style.marginLeft * (1 / 96) * cfg.scale
            let y := y + pf0 style.marginTop * (1 / 96) * cfg.scale
            some ⟨[mkImageItem zIndex domOrder
              { baseOpts x y w h with rotate := some rotation }
              (some domOrder) .plainData], true⟩
          else
            -- standard CSS extraction
            let bgColorObj := parseColor cenv style.backgroundColor
            let bgClip := if style.webkitBackgroundClip ≠ "" then style.webkitBackgroundClip
                          else style.backgroundClip
            let isBgClipText := bgClip = "text"
            let hasGradient := ¬isBgClipText && style.backgroundImage ≠ "" &&
              sIncludes style.backgroundImage "linear-gradient"
            let borderColorObj := parseColor cenv style.borderColor
            let borderWidth := jsParseFloat style.borderWidth
            let hasBorder := (match borderWidth with
              | some v => decide (v > 0)
              | none => false) && borderColorObj.hex.isSome
            let borderInfo := getBorderInfo cenv style cfg.scale
            let hasCompositeBorder : Bool := match borderInfo with
              | .composite _ => true
              | _ => false
            let shadowStr := style.boxShadow
            let hasShadow := shadowStr ≠ "" && shadowStr ≠ "none"
            let softEdge := getSoftEdges style.filter cfg.scale
            let isImageWrapper : Bool :=
              match (elemChildren cs).find? fun (c, _) => c.tag = "IMG" with
              | some (imgD, _) =>
                let childW := if imgD.offsetWidth ≠ 0 then imgD.offsetWidth else imgD.rect.width
                let childH := if imgD.offsetHeight ≠ 0 then imgD.offsetHeight else imgD.rect.height
                childW ≥ widthPx - 2 && childH ≥ heightPx - 2
              | none => false
            let textPayload :=
              if isTextContainer cenv d cs then
                buildTextPayload cenv cfg.scale style cs bgColorObj.hex
              else none
            if hasGradient || (softEdge.isSome && bgColorObj.hex.isSome && !isImageWrapper) then
              let (bgData, padIn) :=
                match softEdge with
                | some se =>
                  let (data, pad) := generateBlurredSVG widthPx heightPx bgColorObj.hex
                    borderRadiusValue se
                  (some data, pad * (1 / 96) * cfg.scale)
                | none =>
                  (generateGradientSVG menv widthPx heightPx style.backgroundImage
                    borderRadiusValue
                    (if hasBorder then some (borderColorObj.hex.getD "", borderWidth.getD 0)
                     else none), 0)
              let compositeSides := match borderInfo with
                | .composite sides => some sides
                | _ => none
              some ⟨gradientBranchItems zIndex domOrder rotation x y w h padIn bgData
                textPayload compositeSides cfg.scale, textPayload.isSome⟩
            else if (bgColorObj.hex.isSome && !isImageWrapper) ||
                (match borderInfo with | .uniform _ => true | _ => false) ||
                hasCompositeBorder || hasShadow || textPayload.isSome then
              let useSolidFill := bgColorObj.hex.isSome && !isImageWrapper
              some ⟨stdBranchItems zIndex domOrder rotation x y w h widthPx heightPx
                style bgColorObj safeOpacity useSolidFill hasPartialBorderRadius
                borderInfo (getVisibleShadow menv cenv shadowStr cfg.scale)
                hasShadow textPayload clipId, textPayload.isSome⟩
            else
              some ⟨[], textPayload.isSome⟩

/-- `prepareRenderItem(node, config, domOrder, pptx, effectiveZIndex,
computedStyle, globalOptions)`. -/
def prepareRenderItem (cenv : CanvasEnv) (menv : MathEnv) (clipId : String)
    (cfg : LayoutConfig) (gopts : GlobalOptions)
    (parent : Option DomNode) (chain : List ElemData)
    (node : DomNode) (domOrder : ℕ) (effZ : ℤ) : Option PrepResult :=
  match node with
  | .text v rect =>
    let textContent := sTrim v
    if textContent = "" then none
    else
      match parent with
      | none => none
      | some (.text _ _) => none -- a text node's parentElement is an element
      | some (.elem pd pcs) =>
        if isTextContainer cenv pd pcs then none
        else
          let style := pd.style
          let unrotatedW := rect.width * (1 / 96) * cfg.scale
          let unrotatedH := rect.height * (1 / 96) * cfg.scale
          let x := cfg.offX + (rect.left - cfg.rootX) * (1 / 96) * cfg.scale
          let y := cfg.offY + (rect.top - cfg.rootY) * (1 / 96) * cfg.scale
          some ⟨[mkTextItem effZ domOrder
            [(textContent, getTextStyle cenv style cfg.scale)]
            { baseOpts x y unrotatedW unrotatedH with
                margin := some 0, autoFit := some false }], false⟩
  | .elem d cs => prepareElem cenv menv clipId cfg gopts parent chain d cs domOrder effZ

/-! ## The synchronous traversal (`collect`, src/index.js lines 180–233) -/

mutual
/-- `collect(node, parentZIndex)`: assign the traversal index (the counter
advances for every visited node, pruned or not), prune hidden elements with
their whole subtree, resolve the effective stack order, classify, and recurse
unless the classifier claimed the subtree. -/
def collect (ext : Ext) (cfg : LayoutConfig) (gopts : GlobalOptions) :
    DomNode → Option DomNode → List ElemData → ℤ → ℕ → List RenderItem × ℕ
  | node, parent, chain, parentZ, counter =>
    let order := counter
    let counter := counter + 1
    match node with
    | .text v r =>
      let res := prepareRenderItem ext.cenv ext.menv (ext.rand order) cfg gopts parent chain (.text v r) order parentZ
      ((match res with | some re => re.items | none => []), counter)
    | .elem d cs =>
      if d.style.display = "none" || d.style.visibility = "hidden" ||
          d.style.opacity = "0" then
        ([], counter)
      else
        let currentZ :=
          if d.style.zIndex ≠ "auto" then (jsParseInt d.style.zIndex).getD 0 else parentZ
        let res := prepareRenderItem ext.cenv ext.menv (ext.rand order) cfg gopts parent chain (.elem d cs) order currentZ
        match res with
        | some re =>
          if re.stopRecursion then (re.items, counter)
          else
            let (childItems, counter') :=
              collectList ext cfg gopts cs (some (.elem d cs)) (d :: chain) currentZ counter
            (re.items ++ childItems, counter')
        | none =>
          let (childItems, counter') :=
            collectList ext cfg gopts cs (some (.elem d cs)) (d :: chain) currentZ counter
          (childItems, counter')

def collectList (ext : Ext) (cfg : LayoutConfig) (gopts : GlobalOptions) :
    List DomNode → Option DomNode → List ElemData → ℤ → ℕ → List RenderItem × ℕ
  | [], _, _, _, counter => ([], counter)
  | c :: rest, parent, chain, z, counter =>
    let (items, counter') := collect ext cfg gopts c parent chain z counter
    let (items', counter'') := collectList ext cfg gopts rest parent chain z counter'
    (items ++ items', counter'')
end

mutual
/-- Number of nodes of a subtree — the number of traversal indices `collect`
can consume on it. -/
def nodeSize : DomNode → ℕ
  | .text _ _ => 1
  | .elem _ cs => 1 + nodeListSize cs

def nodeListSize : List DomNode → ℕ
  | [] => 0
  | c :: rest => nodeSize c + nodeListSize rest
end

/-! ## Deferred-job phase, cleanup and sort (src/index.js lines 236–249) -/

/-- Run the deferred job bound to one item (if any): either fill
`options.data` or mark the item `skip`.  A job touches no state but its own
item's payload and flag. -/
def runJob (ext : Ext) (item : RenderItem) : RenderItem :=
  match item.jobKey with
  | none => item
  | some k =>
    match ext.jobs k with
    | none => { item with skip := true }
    | some s =>
      match item.jobKind with
      | .canvasData =>
        if s.length > 10 then
          { item with options := { item.options with data := some s } }
        else { item with skip := true }
      | .plainData =>
        if s ≠ "" then
          { item with options := { item.options with data := some s } }
        else { item with skip := true }

/-- The cleanup filter:
`!item.skip && (item.type !== 'image' || item.options.data)`. -/
def keepItem (item : RenderItem) : Bool :=
  ¬item.skip && (item.itype ≠ .image ||
    (item.options.data ≠ none && item.options.data ≠ some ""))

/-- The sort comparator
`(a, b) => a.zIndex !== b.zIndex ? a.zIndex - b.zIndex : a.domOrder - b.domOrder`
as the total preorder it realizes. -/
def itemLe (a b : RenderItem) : Prop :=
  a.zIndex < b.zIndex ∨ (a.zIndex = b.zIndex ∧ a.domOrder ≤ b.domOrder)

instance : DecidableRel itemLe := fun a b => by
  unfold itemLe; infer_instance

instance : IsTotal RenderItem itemLe :=
  ⟨fun a b => by
    unfold itemLe
    rcases lt_trichotomy a.zIndex b.zIndex with h | h | h
    · exact Or.inl (Or.inl h)
    · rcases le_total a.domOrder b.domOrder with h2 | h2
      · exact Or.inl (Or.inr ⟨h, h2⟩)
      · exact Or.inr (Or.inr ⟨h.symm, h2⟩)
    · exact Or.inr (Or.inl h)⟩

instance : IsTrans RenderItem itemLe :=
  ⟨fun a b c hab hbc => by
    unfold itemLe at *
    rcases hab with h1 | ⟨e1, d1⟩ <;> rcases hbc with h2 | ⟨e2, d2⟩
    · exact Or.inl (h1.trans h2)
    · exact Or.inl (e2 ▸ h1)
    · exact Or.inl (e1 ▸ h2)
    · exact Or.inr ⟨e1.trans e2, d1.trans d2⟩⟩

/-- The `(stackOrder, traversalIndex)` sort key of an item. -/
def itemKey (it : RenderItem) : ℤ × ℕ := (it.zIndex, it.domOrder)

/-- `Array.prototype.sort` is stable (ES2019); insertion sort realizes the
same function for this comparator. -/
def sortQueue (q : List RenderItem) : List RenderItem :=
  List.insertionSort itemLe q

/-- Steps 2–3 of `processSlide`: run all deferred jobs (each touching only
its own item), drop failed/dataless items, sort by
`(stackOrder, traversalIndex)`. -/
def finalizeQueue (ext : Ext) (q : List RenderItem) : List RenderItem :=
  sortQueue ((q.map (runJob ext)).filter keepItem)

/-- `processSlide` up to the draw-command hand-off: the ordered item list the
document builder receives.  `outerChain` is the ancestor chain of the slide
root below `document.body` (consulted only by `isClippedByParent`). -/
def processSlideQueue (ext : Ext) (gopts : GlobalOptions)
    (outerChain : List ElemData) (root : DomNode) : List RenderItem :=
  let rootRect := root.brect
  let pptxWidthIn : ℚ := 10
  let pptxHeightIn : ℚ := 45 / 8
  let contentWidthIn := rootRect.width * (1 / 96)
  let contentHeightIn := rootRect.height * (1 / 96)
  let scale := min (pptxWidthIn / contentWidthIn) (pptxHeightIn / contentHeightIn)
  let cfg : LayoutConfig :=
    { rootX := rootRect.left
      rootY := rootRect.top
      scale := scale
      offX := (pptxWidthIn - contentWidthIn * scale) / 2
      offY := (pptxHeightIn - contentHeightIn * scale) / 2 }
  let (queue, _) := collect ext cfg gopts root none outerChain 0 0
  finalizeQueue ext queue

/-- The external world `ext` with the asset production of job `k` removed:
that node's deferred job now fails (decode error, capture error, blocked
resource) while every other job is unchanged. -/
def failJob (ext : Ext) (k : ℕ) : Ext :=
  { ext with jobs := fun j => if j = k then none else ext.jobs j }

/-! ## Concrete test fixtures

A neutral computed style (browser defaults for a plain `div`), element
constructors, and a concrete external environment, used to evaluate the
pipeline on small explicit trees. -/

def baseStyle : CStyle :=
  { display := "block", visibility := "visible", opacity := "1", zIndex := "auto",
    transform := "none", backgroundColor := "", backgroundImage := "none",
    backgroundClip := "border-box", webkitBackgroundClip := "",
    borderRadius := "0px", borderTopLeftRadius := "0px", borderTopRightRadius := "0px",
    borderBottomRightRadius := "0px", borderBottomLeftRadius := "0px",
    borderWidth := "0px", borderColor := "rgb(0, 0, 0)",
    borderTopWidth := "0px", borderTopStyle := "none", borderTopColor := "rgb(0, 0, 0)",
    borderRightWidth := "0px", borderRightStyle := "none", borderRightColor := "rgb(0, 0, 0)",
    borderBottomWidth := "0px", borderBottomStyle := "none", borderBottomColor := "rgb(0, 0, 0)",
    borderLeftWidth := "0px", borderLeftStyle := "none", borderLeftColor := "rgb(0, 0, 0)",
    boxShadow := "none", filter := "none", overflow := "visible",
    textAlign := "start", verticalAlign := "baseline", alignItems := "normal",
    justifyContent := "normal", paddingTop := "0px", paddingRight := "0px",
    paddingBottom := "0px", paddingLeft := "0px", marginTop := "0px",
    marginBottom := "0px", marginLeft := "0px", color := "rgb(0, 0, 0)",
    fontFamily := "Arial", fontSize := "16px", fontWeight := "400",
    fontStyle := "normal", textDecoration := "none solid rgb(0, 0, 0)",
    lineHeight := "normal", textTransform := "none", listStyleType := "disc",
    objectFit := "fill", objectPosition := "50% 50%" }

def mkElem (tag : String) (st : CStyle) (r : Rect) : ElemData :=
  { tag := tag, className := "", attrs := [], style := st,
    beforeContent := "none", afterContent := "none", markerColor := "",
    markerFontSize := "", rect := r, offsetWidth := r.width,
    offsetHeight := r.height, innerText := "", src := "" }

/-- A canvas environment whose normalization is the identity (adequate for
already-normalized `#rrggbb` inputs) and whose pixel readback is opaque
black. -/
def idCanvasEnv : CanvasEnv := { norm := fun s => s, pixel := fun _ => (0, 0, 0, 255) }

def zeroMathEnv : MathEnv :=
  { sqrt := fun _ => 0, atan2deg := fun _ _ => 0, radToDeg := fun v => v,
    cosCss := fun _ => 0, sinCss := fun _ => 0 }

def extA : Ext :=
  { cenv := idCanvasEnv, menv := zeroMathEnv, jobs := fun _ => none,
    rand := fun _ => "clip_aaaaaaaaa" }

/-- The same external world as `extA` with a different random clip-identifier
stream (a fresh run of `Math.random()`). -/
def extB : Ext := { extA with rand := fun _ => "clip_bbbbbbbbb" }

def gopts0 : GlobalOptions := { listConfig := none, svgAsVector := false }

/-- C1 fixture: two sibling `div`s under a neutral root; the first sibling
declares `z-index: 5`, the second inherits stack order `0`. -/
def c1Child1 : DomNode :=
  .elem (mkElem "DIV" { baseStyle with zIndex := "5", backgroundColor := "#ff0000" }
    ⟨0, 0, 100, 50⟩) []

def c1Child2 : DomNode :=
  .elem (mkElem "DIV" { baseStyle with backgroundColor := "#0000ff" }
    ⟨0, 100, 100, 50⟩) []

def c1Root : DomNode := .elem (mkElem "DIV" baseStyle ⟨0, 0, 960, 540⟩) [c1Child1, c1Child2]

/-- The same two siblings in the opposite document order. -/
def c1RootSwapped : DomNode :=
  .elem (mkElem "DIV" baseStyle ⟨0, 0, 960, 540⟩) [c1Child2, c1Child1]

/-- C6 fixture: a parent of visual extent `0.3px × 10px` whose child is a
normal visible `div` with a background. -/
def c6ZeroParentData : ElemData := mkElem "DIV" baseStyle ⟨0, 0, 3 / 10, 10⟩

def c6Child : DomNode :=
  .elem (mkElem "DIV" { baseStyle with backgroundColor := "#00ff00" } ⟨0, 0, 100, 20⟩) []

def c6Root : DomNode :=
  .elem (mkElem "DIV" baseStyle ⟨0, 0, 960, 540⟩) [.elem c6ZeroParentData [c6Child]]

/-- C8 fixture: a node with a composite (top-only) border, whose overlay SVG
payload embeds the per-run random clip identifier. -/
def c8Child : DomNode :=
  .elem (mkElem "DIV" { baseStyle with
    borderTopWidth := "2px", borderTopStyle := "solid", borderTopColor := "#ff0000",
    backgroundColor := "#ffffff" } ⟨0, 0, 100, 50⟩) []

def c8Root : DomNode := .elem (mkElem "DIV" baseStyle ⟨0, 0, 960, 540⟩) [c8Child]

/-- C3 fixture: a uniform 2px solid red border. -/
def c3UniformStyle : CStyle :=
  { baseStyle with
    borderTopWidth := "2px", borderTopStyle := "solid", borderTopColor := "#ff0000",
    borderRightWidth := "2px", borderRightStyle := "solid", borderRightColor := "#ff0000",
    borderBottomWidth := "2px", borderBottomStyle := "solid", borderBottomColor := "#ff0000",
    borderLeftWidth := "2px", borderLeftStyle := "solid", borderLeftColor := "#ff0000" }

/-! # Theorems -/

/-! ## C4 — radius legalization -/

/-- Modelled from the spec's words (the claimed formula, for comparison with
the code's `a / b || Infinity`): a division by zero is treated as infinity. -/
def specDivInf (a b : ℚ) : JNum := if b = 0 then .inf else .fin (a / b)

/-- The claim's factor `min(w/(tl+tr), h/(tr+br), w/(br+bl), h/(bl+tl))`,
divisions by zero as infinity. -/
def radiiFactorSpec (w h : ℚ) (r : Radii) : JNum :=
  (((specDivInf w (r.tl + r.tr)).min2 (specDivInf h (r.tr + r.br))).min2
      (specDivInf w (r.br + r.bl))).min2 (specDivInf h (r.bl + r.tl))

lemma jsDivOrInf_eq_specDivInf (a b : ℚ) (ha : 0 < a) (hb : 0 ≤ b) :
    jsDivOrInf a b = specDivInf a b := by
  unfold jsDivOrInf specDivInf
  by_cases h : b = 0
  · simp [h]
  · have hb' : 0 < b := lt_of_le_of_ne hb (Ne.symm h)
    have hq : a / b ≠ 0 := ne_of_gt (div_pos ha hb')
    simp [h, hq]

/-- Finiteness-positivity is preserved by the JS `Math.min` pairing. -/
lemma min2_posfin {x y : JNum}
    (hx : x = .inf ∨ ∃ q, x = .fin q ∧ 0 < q)
    (hy : y = .inf ∨ ∃ q, y = .fin q ∧ 0 < q) :
    x.min2 y = .inf ∨ ∃ q, x.min2 y = .fin q ∧ 0 < q := by
  unfold JNum.min2
  split <;> [exact hy; exact hx]

lemma specDivInf_posfin (a b : ℚ) (ha : 0 < a) (hb : 0 ≤ b) :
    specDivInf a b = .inf ∨ ∃ q, specDivInf a b = .fin q ∧ 0 < q := by
  unfold specDivInf
  by_cases h : b = 0
  · simp [h]
  · have hb' : 0 < b := lt_of_le_of_ne hb (Ne.symm h)
    right; exact ⟨a / b, by simp [h], div_pos ha hb'⟩

lemma radiiFactorSpec_posfin (w h : ℚ) (r : Radii) (hw : 0 < w) (hh : 0 < h)
    (h1 : 0 ≤ r.tl) (h2 : 0 ≤ r.tr) (h3 : 0 ≤ r.br) (h4 : 0 ≤ r.bl) :
    radiiFactorSpec w h r = .inf ∨ ∃ q, radiiFactorSpec w h r = .fin q ∧ 0 < q := by
  unfold radiiFactorSpec
  exact min2_posfin
    (min2_posfin
      (min2_posfin (specDivInf_posfin w _ hw (by positivity))
        (specDivInf_posfin h _ hh (by positivity)))
      (specDivInf_posfin w _ hw (by positivity)))
    (specDivInf_posfin h _ hh (by positivity))

/-- **C4** — Radius legalization computes
`factor = min(w/(tl+tr), h/(tr+br), w/(br+bl), h/(bl+tl))`, division by zero
as infinity, and scales all four radii by the factor exactly when
`factor < 1`; radii are never scaled up.  In particular, for
`w = 100, h = 40, tl = tr = br = bl = 60` the factor is `1/3` and every
resolved corner radius is `20`. -/
theorem radius_legalization_spec (w h : ℚ) (r : Radii)
    (hw : 0 < w) (hh : 0 < h)
    (h1 : 0 ≤ r.tl) (h2 : 0 ≤ r.tr) (h3 : 0 ≤ r.br) (h4 : 0 ≤ r.bl) :
    radiiFactor w h r = radiiFactorSpec w h r ∧
    (∀ f : ℚ, radiiFactorSpec w h r = .fin f →
      (f < 1 → legalizeRadii w h r = ⟨r.tl * f, r.tr * f, r.br * f, r.bl * f⟩ ∧
        r.tl * f ≤ r.tl ∧ r.tr * f ≤ r.tr ∧ r.br * f ≤ r.br ∧ r.bl * f ≤ r.bl) ∧
      (¬ f < 1 → legalizeRadii w h r = r)) ∧
    (radiiFactorSpec w h r = .inf → legalizeRadii w h r = r) ∧
    legalizeRadii 100 40 ⟨60, 60, 60, 60⟩ = ⟨20, 20, 20, 20⟩ ∧
    radiiFactorSpec 100 40 ⟨60, 60, 60, 60⟩ = .fin (1 / 3) := by
  have hfac : radiiFactor w h r = radiiFactorSpec w h r := by
    unfold radiiFactor radiiFactorSpec
    rw [jsDivOrInf_eq_specDivInf w _ hw (by positivity),
      jsDivOrInf_eq_specDivInf h _ hh (by positivity),
      jsDivOrInf_eq_specDivInf w _ hw (by positivity),
      jsDivOrInf_eq_specDivInf h _ hh (by positivity)]
  have hconc1 : legalizeRadii 100 40 ⟨60, 60, 60, 60⟩ = ⟨20, 20, 20, 20⟩ := by
    simp only [legalizeRadii, radiiFactor, radiiFactorSpec, jsDivOrInf, specDivInf,
      JNum.min2, JNum.lt]
    norm_num
  have hconc2 : radiiFactorSpec 100 40 ⟨60, 60, 60, 60⟩ = .fin (1 / 3) := by
    simp only [radiiFactorSpec, specDivInf, JNum.min2, JNum.lt]
    norm_num
  refine ⟨hfac, ?_, ?_, hconc1, hconc2⟩
  · intro f hf
    have hpos : 0 < f := by
      rcases radiiFactorSpec_posfin w h r hw hh h1 h2 h3 h4 with hinf | ⟨q, hq, hqpos⟩
      · rw [hf] at hinf; cases hinf
      · rw [hf] at hq; cases hq; exact hqpos
    constructor
    · intro hlt
      refine ⟨?_, mul_le_of_le_one_right h1 hlt.le, mul_le_of_le_one_right h2 hlt.le,
        mul_le_of_le_one_right h3 hlt.le, mul_le_of_le_one_right h4 hlt.le⟩
      unfold legalizeRadii
      rw [hfac, hf]
      simp [hlt]
    · intro hge
      unfold legalizeRadii
      rw [hfac, hf]
      simp [hge]
  · intro hinf
    unfold legalizeRadii
    rw [hfac, hinf]

/-- Witness for C4 at the spec's concrete input. -/
theorem radius_legalization_spec_witness :
    legalizeRadii 100 40 ⟨60, 60, 60, 60⟩ = ⟨20, 20, 20, 20⟩ :=
  (radius_legalization_spec 100 40 ⟨60, 60, 60, 60⟩ (by norm_num) (by norm_num)
    (by norm_num) (by norm_num) (by norm_num) (by norm_num)).2.2.2.1

/-! ## C3 — border classification -/

/-- **C3** — Classification of the four computed border sides: all four widths
zero yields `none`; all four sides identical in width, style and color (with a
positive width) yields `uniform` with width scaled by `0.75 × scale`, `dashed`
mapped to `dash`, `dotted` to `dot`, anything else to `solid`, and transparency
`(1 − opacity of the top border color) × 100`; any differing side yields
`composite` carrying the four per-side records. -/
theorem border_classification (env : CanvasEnv) (st : CStyle) (scale : ℚ) :
    (((readBorderSides env st).top.width = 0 ∧ (readBorderSides env st).right.width = 0 ∧
        (readBorderSides env st).bottom.width = 0 ∧ (readBorderSides env st).left.width = 0) →
      getBorderInfo env st scale = .none) ∧
    ((0 < (readBorderSides env st).top.width ∨ 0 < (readBorderSides env st).right.width ∨
        0 < (readBorderSides env st).bottom.width ∨ 0 < (readBorderSides env st).left.width) →
      ((readBorderSides env st).right = (readBorderSides env st).top ∧
        (readBorderSides env st).bottom = (readBorderSides env st).top ∧
        (readBorderSides env st).left = (readBorderSides env st).top) →
      getBorderInfo env st scale = .uniform
        ⟨(readBorderSides env st).top.width * (3 / 4) * scale,
          (readBorderSides env st).top.color,
          (1 - (parseColor env st.borderTopColor).opacity) * 100,
          mapDashType (readBorderSides env st).top.style⟩) ∧
    ((0 < (readBorderSides env st).top.width ∨ 0 < (readBorderSides env st).right.width ∨
        0 < (readBorderSides env st).bottom.width ∨ 0 < (readBorderSides env st).left.width) →
      ¬((readBorderSides env st).right = (readBorderSides env st).top ∧
          (readBorderSides env st).bottom = (readBorderSides env st).top ∧
          (readBorderSides env st).left = (readBorderSides env st).top) →
      getBorderInfo env st scale = .composite (readBorderSides env st)) ∧
    mapDashType "dashed" = "dash" ∧ mapDashType "dotted" = "dot" ∧
    (∀ sty, sty ≠ "dashed" → sty ≠ "dotted" → mapDashType sty = "solid") := by
  set s := readBorderSides env st with hs
  refine ⟨?_, ?_, ?_, by decide, by decide, ?_⟩
  · intro ⟨h1, h2, h3, h4⟩
    unfold getBorderInfo
    dsimp only
    rw [← hs, h1, h2, h3, h4]
    simp
  · intro hpos ⟨e1, e2, e3⟩
    have htop : 0 < s.top.width := by
      rcases hpos with h | h | h | h
      · exact h
      · rwa [e1] at h
      · rwa [e2] at h
      · rwa [e3] at h
    unfold getBorderInfo
    dsimp only
    rw [← hs, e1, e2, e3]
    simp [htop]
  · intro hpos hne
    unfold getBorderInfo
    dsimp only
    rw [← hs]
    have hb : (decide (s.top.width > 0) || decide (s.right.width > 0) ||
        decide (s.bottom.width > 0) || decide (s.left.width > 0)) = true := by
      simp only [Bool.or_eq_true, decide_eq_true_eq]
      tauto
    have hu : ¬(s.top.width = s.right.width ∧ s.top.width = s.bottom.width ∧
        s.top.width = s.left.width ∧ s.top.style = s.right.style ∧
        s.top.style = s.bottom.style ∧ s.top.style = s.left.style ∧
        s.top.color = s.right.color ∧ s.top.color = s.bottom.color ∧
        s.top.color = s.left.color) := by
      intro ⟨w1, w2, w3, t1, t2, t3, c1, c2, c3⟩
      exact hne ⟨by cases hr : s.right; cases ht : s.top; simp_all,
        by cases hr : s.bottom; cases ht : s.top; simp_all,
        by cases hr : s.left; cases ht : s.top; simp_all⟩
    rw [hb]
    rw [if_neg (by simp)]
    rw [if_neg ?_]
    simp only [Bool.and_eq_true, decide_eq_true_eq, not_and]
    intro w1 w2
    exact hu (by tauto)
  · intro sty h1 h2
    simp [mapDashType, h1, h2]

unseal Rat.mul Rat.inv Rat.add Rat.sub in
/-- Witness for C3: a concrete all-equal 2px solid red border classifies as
`uniform` with scaled width `3/2` and transparency `0`. -/
theorem border_classification_witness :
    getBorderInfo idCanvasEnv c3UniformStyle 1 =
      .uniform ⟨3 / 2, some "FF0000", 0, "solid"⟩ := by
  have h := (border_classification idCanvasEnv c3UniformStyle 1).2.1
    (by decide) (by decide)
  rw [h]
  decide

/-! ## C9 — `parseColor` output well-formedness -/

/-- Uppercase hexadecimal digit characters. -/
def isUpperHexCh (c : Char) : Bool :=
  ('0' ≤ c && c ≤ '9') || ('A' ≤ c && c ≤ 'F')

/-- The characters browser color serializations use for hex digits. -/
def lowerHexChars : List Char := ("0123456789abcdef").data

/-- The well-formedness invariant of `parseColor` results: either the
transparent pair, or a 6-character uppercase hex color with opacity in
`[0, 1]`. -/
def GoodColor (p : ColorPair) : Prop :=
  (p.hex = none ∧ p.opacity = 0) ∨
  (∃ hx, p.hex = some hx ∧ hx.length = 6 ∧ (∀ c ∈ hx.data, isUpperHexCh c = true) ∧
    0 ≤ p.opacity ∧ p.opacity ≤ 1)

lemma mem_lowerHex_toUpper {c : Char} (h : c ∈ lowerHexChars) :
    isUpperHexCh c.toUpper = true := by
  fin_cases h <;> decide

lemma hexDigitVal_lt {c : Char} (h : c ∈ lowerHexChars) : hexDigitVal c < 16 := by
  fin_cases h <;> decide

lemma hexValAux_lt (l : List Char) (h : ∀ c ∈ l, c ∈ lowerHexChars) :
    ∀ a, hexValAux a l < (a + 1) * 16 ^ l.length := by
  induction l with
  | nil =>
    intro a
    show a < (a + 1) * 16 ^ ([] : List Char).length
    simp
  | cons c t ih =>
    intro a
    have hc := hexDigitVal_lt (h c (.head _))
    have ht : ∀ x ∈ t, x ∈ lowerHexChars := fun x hx => h x (.tail _ hx)
    have h1 : hexValAux (a * 16 + hexDigitVal c) t <
        (a * 16 + hexDigitVal c + 1) * 16 ^ t.length := ih ht _
    have h2 : (a * 16 + hexDigitVal c + 1) * 16 ^ t.length ≤
        ((a + 1) * 16) * 16 ^ t.length := by
      have : a * 16 + hexDigitVal c + 1 ≤ (a + 1) * 16 := by omega
      exact Nat.mul_le_mul_right _ this
    calc hexValAux a (c :: t) = hexValAux (a * 16 + hexDigitVal c) t := rfl
      _ < ((a + 1) * 16) * 16 ^ t.length := lt_of_lt_of_le h1 h2
      _ = (a + 1) * 16 ^ (c :: t).length := by
          rw [List.length_cons, pow_succ]; ring

lemma hexVal_le_255 (l : List Char) (hlen : l.length = 2)
    (h : ∀ c ∈ l, c ∈ lowerHexChars) : hexVal l ≤ 255 := by
  have := hexValAux_lt l h 0
  rw [hlen] at this
  unfold hexVal
  omega

lemma hexDigitChar_mem {n : ℕ} (h : n < 16) : hexDigitChar n ∈ lowerHexChars := by
  interval_cases n <;> decide

lemma hexDigits_mem (n : ℕ) : ∀ c ∈ hexDigits n, c ∈ lowerHexChars := by
  induction n using Nat.strong_induction_on with
  | _ n ih =>
    rw [hexDigits]
    split
    · next h =>
      intro c hc
      simp only [List.mem_singleton] at hc
      subst hc
      exact hexDigitChar_mem h
    · next h =>
      intro c hc
      simp only [List.mem_append, List.mem_singleton] at hc
      rcases hc with hc | hc
      · exact ih (n / 16) (Nat.div_lt_self (by omega) (by norm_num)) c hc
      · subst hc
        exact hexDigitChar_mem (Nat.mod_lt _ (by norm_num))

lemma hexDigits_length (k : ℕ) : ∀ n, 16 ^ k ≤ n → n < 16 ^ (k + 1) →
    (hexDigits n).length = k + 1 := by
  induction k with
  | zero =>
    intro n h1 h2
    rw [hexDigits, dif_pos (by simpa using h2)]
    rfl
  | succ k ih =>
    intro n h1 h2
    have hpow : (16:ℕ) ≤ 16 ^ (k + 1) := by
      calc (16:ℕ) = 16 ^ 1 := (pow_one 16).symm
        _ ≤ 16 ^ (k + 1) := Nat.pow_le_pow_right (by norm_num) (by omega)
    have h16 : ¬ n < 16 := by omega
    rw [hexDigits, dif_neg h16, List.length_append]
    have e1 : 16 ^ k ≤ n / 16 := by
      rw [Nat.le_div_iff_mul_le (by norm_num : 0 < 16)]
      calc 16 ^ k * 16 = 16 ^ (k + 1) := (pow_succ 16 k).symm
        _ ≤ n := h1
    have e2 : n / 16 < 16 ^ (k + 1) := by
      rw [Nat.div_lt_iff_lt_mul (by norm_num : 0 < 16)]
      calc n < 16 ^ (k + 1 + 1) := h2
        _ = 16 ^ (k + 1) * 16 := pow_succ 16 (k + 1)
    rw [ih (n / 16) e1 e2]
    simp

lemma rgbHex6_spec (r g b : ℕ) (hr : r ≤ 255) (hg : g ≤ 255) (hb : b ≤ 255) :
    (rgbHex6 r g b).length = 6 ∧ ∀ c ∈ (rgbHex6 r g b).data, isUpperHexCh c = true := by
  set v := 2 ^ 24 + r * 2 ^ 16 + g * 2 ^ 8 + b with hv
  have hlo : 16 ^ 6 ≤ v := by rw [hv]; norm_num; omega
  have hhi : v < 16 ^ 7 := by rw [hv]; nlinarith [hr, hg, hb]
  have hlen : (hexDigits v).length = 7 := hexDigits_length 6 v hlo hhi
  have hmem := hexDigits_mem v
  constructor
  · show (((hexDigits v).drop 1).map Char.toUpper).length = 6
    rw [List.length_map, List.length_drop, hlen]
  · intro c hc
    have hc' : c ∈ ((hexDigits v).drop 1).map Char.toUpper := hc
    rw [List.mem_map] at hc'
    obtain ⟨c0, hc0, rfl⟩ := hc'
    exact mem_lowerHex_toUpper (hmem c0 (List.mem_of_mem_drop hc0))

lemma doubleChars_length (l : List Char) : (doubleChars l).length = 2 * l.length := by
  induction l with
  | nil => rfl
  | cons c t ih => simp [doubleChars] at ih ⊢; omega

lemma doubleChars_mem {c : Char} {l : List Char} (h : c ∈ doubleChars l) : c ∈ l := by
  unfold doubleChars at h
  rw [List.mem_flatMap] at h
  obtain ⟨a, ha, hc⟩ := h
  simp only [List.mem_cons, List.not_mem_nil, or_false] at hc
  rcases hc with rfl | rfl <;> exact ha

lemma startsWith_hash {c : String} (h : sStartsWith c "#" = true) :
    ∃ l, c.data = '#' :: l := by
  unfold sStartsWith at h
  cases hd : c.data with
  | nil => rw [hd] at h; simp [startsWithL] at h
  | cons a as =>
    rw [hd] at h
    refine ⟨as, ?_⟩
    have : a = '#' := by
      by_contra hne
      simp [startsWithL, hne] at h
    rw [this]

lemma goodColor_some (m : List Char) (hchar : ∀ c ∈ m, c ∈ lowerHexChars)
    (hlen : m.length = 6) (op : ℚ) (h0 : 0 ≤ op) (h1 : op ≤ 1) :
    GoodColor ⟨some (toUpperStr (ofChars m)), op⟩ := by
  right
  refine ⟨toUpperStr (ofChars m), rfl, ?_, ?_, h0, h1⟩
  · show (m.map Char.toUpper).length = 6
    rw [List.length_map, hlen]
  · intro c hc
    rw [show (toUpperStr (ofChars m)).data = m.map Char.toUpper from rfl,
      List.mem_map] at hc
    obtain ⟨c0, hc0, rfl⟩ := hc
    exact mem_lowerHex_toUpper (hchar c0 hc0)

lemma hexVal_cast_le_one {l : List Char} (hlen : l.length = 2)
    (h : ∀ c ∈ l, c ∈ lowerHexChars) : ((hexVal l : ℚ) / 255) ≤ 1 := by
  rw [div_le_one (by norm_num : (0:ℚ) < 255)]
  exact_mod_cast hexVal_le_255 l hlen h

/-- The `#…` fast path of `parseColor` yields a well-formed pair for every
browser-shaped hex serialization. -/
lemma goodColor_hexBranch (l : List Char) (hchars : ∀ c ∈ l, c ∈ lowerHexChars)
    (hlens : l.length = 3 ∨ l.length = 4 ∨ l.length = 6 ∨ l.length = 8) :
    GoodColor (
      let hex1 := if l.length = 3 then doubleChars l else l
      let hex2 := if hex1.length = 4 then doubleChars hex1 else hex1
      if hex2.length = 8 then
        ⟨some (toUpperStr (ofChars (hex2.take 6))), (hexVal (hex2.drop 6) : ℚ) / 255⟩
      else ⟨some (toUpperStr (ofChars hex2)), 1⟩) := by
  have hdl := doubleChars_length l
  have hmem : ∀ c ∈ doubleChars l, c ∈ lowerHexChars :=
    fun c hc => hchars c (doubleChars_mem hc)
  rcases hlens with h | h | h | h <;> rw [h] at hdl <;> norm_num [hdl, h]
  · -- 3 chars, doubled to 6
    exact goodColor_some _ hmem (by rw [hdl]) 1 (by norm_num) le_rfl
  · -- 4 chars, doubled to 8, alpha split
    have hdropLen : ((doubleChars l).drop 6).length = 2 := by
      rw [List.length_drop, hdl]
    have hdropMem : ∀ c ∈ (doubleChars l).drop 6, c ∈ lowerHexChars :=
      fun c hc => hmem c (List.mem_of_mem_drop hc)
    refine goodColor_some _ (fun c hc => hmem c (List.mem_of_mem_take hc)) ?_ _
      (by positivity) (hexVal_cast_le_one hdropLen hdropMem)
    rw [List.length_take, hdl]
    omega
  · -- 6 chars
    exact goodColor_some _ hchars h 1 (by norm_num) le_rfl
  · -- 8 chars
    have hdropLen : (l.drop 6).length = 2 := by rw [List.length_drop, h]
    have hdropMem : ∀ c ∈ l.drop 6, c ∈ lowerHexChars :=
      fun c hc => hchars c (List.mem_of_mem_drop hc)
    refine goodColor_some _ (fun c hc => hchars c (List.mem_of_mem_take hc)) ?_ _
      (by positivity) (hexVal_cast_le_one hdropLen hdropMem)
    rw [List.length_take, h]
    omega

/-- **C9** — For every input, `parseColor` returns either `hex = null` with
opacity `0`, or a 6-character uppercase hexadecimal string (no leading `#`)
with opacity in `[0, 1]`, whenever the canvas collaborator returns
browser-shaped serializations; and the guard inputs `""`/`null`,
`"transparent"` and `"rgba(0, 0, 0, 0)"` (the latter also with surrounding
whitespace) return `{hex: null, opacity: 0}` in every environment. -/
theorem parseColor_wellformed (env : CanvasEnv) (s : String)
    (hhex : ∀ l, (env.norm s).data = '#' :: l →
      (∀ c ∈ l, c ∈ lowerHexChars) ∧
        (l.length = 3 ∨ l.length = 4 ∨ l.length = 6 ∨ l.length = 8))
    (hrgb : sStartsWith (env.norm s) "rgb" = true →
      match numberRuns (env.norm s) with
      | m0 :: m1 :: m2 :: rest =>
        ((jsParseInt m0).getD 0).toNat ≤ 255 ∧ ((jsParseInt m1).getD 0).toNat ≤ 255 ∧
          ((jsParseInt m2).getD 0).toNat ≤ 255 ∧
          ∀ m3 r', rest = m3 :: r' →
            0 ≤ (jsParseFloat m3).getD 0 ∧ (jsParseFloat m3).getD 0 ≤ 1
      | _ => True)
    (hpix : (env.pixel s).1 ≤ 255 ∧ (env.pixel s).2.1 ≤ 255 ∧
      (env.pixel s).2.2.1 ≤ 255 ∧ (env.pixel s).2.2.2 ≤ 255) :
    GoodColor (parseColor env s) ∧
    (∀ env' : CanvasEnv, parseColor env' "" = ⟨none, 0⟩ ∧
      parseColor env' "transparent" = ⟨none, 0⟩ ∧
      parseColor env' "rgba(0, 0, 0, 0)" = ⟨none, 0⟩ ∧
      parseColor env' "  rgba(0, 0, 0, 0)  " = ⟨none, 0⟩) := by
  constructor
  · rcases hp : env.pixel s with ⟨r, g, b, a255⟩
    rw [hp] at hpix
    obtain ⟨hr, hg, hb, ha⟩ := hpix
    unfold parseColor
    rw [hp]
    dsimp only
    split
    · exact Or.inl ⟨rfl, rfl⟩
    · split
      · next hhash =>
        obtain ⟨l, hl⟩ := startsWith_hash hhash
        obtain ⟨hchars, hlens⟩ := hhex l hl
        have hdrop : (env.norm s).data.drop 1 = l := by rw [hl]; rfl
        rw [hdrop]
        exact goodColor_hexBranch l hchars hlens
      · split
        · next hcond =>
          rw [Bool.and_eq_true] at hcond
          have hrm := hrgb hcond.1
          split
          · next m0 m1 m2 rest heq =>
            rw [heq] at hrm
            obtain ⟨h0, h1, h2, halpha⟩ := hrm
            cases rest with
            | nil =>
              exact Or.inr ⟨_, rfl, (rgbHex6_spec _ _ _ h0 h1 h2).1,
                (rgbHex6_spec _ _ _ h0 h1 h2).2, by norm_num, le_rfl⟩
            | cons m3 r' =>
              obtain ⟨ha0, ha1⟩ := halpha m3 r' rfl
              exact Or.inr ⟨_, rfl, (rgbHex6_spec _ _ _ h0 h1 h2).1,
                (rgbHex6_spec _ _ _ h0 h1 h2).2, ha0, ha1⟩
          · exact Or.inl ⟨rfl, rfl⟩
        · split
          · exact Or.inl ⟨rfl, rfl⟩
          · refine Or.inr ⟨_, rfl, (rgbHex6_spec r g b hr hg hb).1,
              (rgbHex6_spec r g b hr hg hb).2, by positivity, ?_⟩
            rw [div_le_one (by norm_num : (0:ℚ) < 255)]
            exact_mod_cast ha
  · intro env'
    refine ⟨?_, ?_, ?_, ?_⟩ <;> (unfold parseColor; rw [if_pos (by decide)])

/-- Witness for C9: the identity-normalizing canvas on input `"red"`. -/
theorem parseColor_wellformed_witness :
    GoodColor (parseColor idCanvasEnv "red") ∧
    (∀ env' : CanvasEnv, parseColor env' "" = ⟨none, 0⟩ ∧
      parseColor env' "transparent" = ⟨none, 0⟩ ∧
      parseColor env' "rgba(0, 0, 0, 0)" = ⟨none, 0⟩ ∧
      parseColor env' "  rgba(0, 0, 0, 0)  " = ⟨none, 0⟩) :=
  parseColor_wellformed idCanvasEnv "red"
    (by
      intro l hl
      have h := congrArg List.head? hl
      rw [List.head?_cons] at h
      exact absurd h (by decide))
    (fun h => absurd h (by decide))
    (by decide)

lemma bgWalk_eq_firstVisible (cenv : CanvasEnv) (bg : ColorPair)
    (ancestors : List (String × String)) :
    bgWalk cenv bg ancestors = (firstVisibleAncestorBg cenv ancestors).getD bg := by
  induction ancestors with
  | nil => rfl
  | cons p rest ih =>
    obtain ⟨tag, abgStr⟩ := p
    rw [bgWalk]
    unfold firstVisibleAncestorBg
    rw [List.takeWhile_cons]
    by_cases hstop :
        (["TABLE", "BODY", "HTML"] : List String).contains (toUpperStr tag) = true
    · rw [if_pos hstop, hstop]
      rfl
    · rw [if_neg hstop]
      rw [Bool.not_eq_true] at hstop
      rw [hstop]
      simp only [Bool.not_false, if_true, List.map_cons]
      by_cases hvis : ((parseColor cenv abgStr).hex.isSome &&
          decide (0 < (parseColor cenv abgStr).opacity)) = true
      · rw [if_pos hvis]
        simp only [List.find?_cons, hvis, if_true]
        rfl
      · rw [if_neg hvis]
        rw [Bool.not_eq_true] at hvis
        simp only [List.find?_cons, hvis, if_false]
        unfold firstVisibleAncestorBg at ih
        exact ih

/-- **C7** — A table cell whose own computed background parses as transparent
takes as fill the first non-transparent background on its ancestor chain
before `TABLE`/`BODY`/`HTML`; in particular a transparent cell inside a `tr`
with background `#ff0000` inherits the row's color `FF0000`.  (The walk stops
*before* a `TABLE` ancestor, so the table element's own background is never
consulted.) -/
theorem table_cell_bg_inheritance (cenv : CanvasEnv) (cellBgStr : String)
    (ancestors : List (String × String))
    (htrans : (parseColor cenv cellBgStr).hex = none ∨
      (parseColor cenv cellBgStr).opacity = 0) :
    resolveCellBg cenv cellBgStr ancestors =
      (firstVisibleAncestorBg cenv ancestors).getD (parseColor cenv cellBgStr) ∧
    resolveCellFill idCanvasEnv "rgba(0, 0, 0, 0)" [("tr", "#ff0000")] =
      some "FF0000" := by
  constructor
  · unfold resolveCellBg
    rw [if_pos ?_]
    · exact bgWalk_eq_firstVisible cenv (parseColor cenv cellBgStr) ancestors
    · rcases htrans with h | h <;> rw [h] <;> simp
  · decide

/-- Witness for C7: a `transparent` cell under a red `tr` row. -/
theorem table_cell_bg_inheritance_witness :
    resolveCellBg idCanvasEnv "transparent" [("tr", "#ff0000")] =
      (firstVisibleAncestorBg idCanvasEnv [("tr", "#ff0000")]).getD
        (parseColor idCanvasEnv "transparent") ∧
    resolveCellFill idCanvasEnv "rgba(0, 0, 0, 0)" [("tr", "#ff0000")] =
      some "FF0000" :=
  table_cell_bg_inheritance idCanvasEnv "transparent" [("tr", "#ff0000")]
    (Or.inl (by decide))

lemma atan2R_mem (y x : ℝ) : -Real.pi < atan2R y x ∧ atan2R y x ≤ Real.pi := by
  have hpi := Real.pi_pos
  have h1 := Real.arctan_lt_pi_div_two (y / x)
  have h2 := Real.neg_pi_div_two_lt_arctan (y / x)
  unfold atan2R
  split
  · constructor <;> linarith
  · split
    · next hx0 hxneg =>
      split
      · next hy =>
        have hq : y / x ≤ 0 := div_nonpos_of_nonneg_of_nonpos hy hxneg.le
        have : Real.arctan (y / x) ≤ Real.arctan 0 :=
          Real.arctan_strictMono.monotone hq
        rw [Real.arctan_zero] at this
        constructor <;> linarith
      · next hy =>
        push_neg at hy
        have hq : 0 < y / x := by
          rw [div_pos_iff]
          right
          exact ⟨by linarith, hxneg⟩
        have : Real.arctan 0 < Real.arctan (y / x) := Real.arctan_strictMono hq
        rw [Real.arctan_zero] at this
        constructor <;> linarith
    · split
      · constructor <;> linarith
      · split
        · constructor <;> linarith
        · constructor <;> linarith

lemma shadowAngleDeg_mem (x y : ℚ) :
    0 ≤ shadowAngleDeg x y ∧ shadowAngleDeg x y < 360 := by
  unfold shadowAngleDeg
  obtain ⟨hl, hu⟩ := atan2R_mem (y : ℝ) (x : ℝ)
  have hpi := Real.pi_pos
  have hpne := Real.pi_ne_zero
  have hd : (0 : ℝ) < 180 / Real.pi := by positivity
  have hA1 : -(180 : ℝ) < atan2R (y : ℝ) (x : ℝ) * (180 / Real.pi) := by
    have h := mul_lt_mul_of_pos_right hl hd
    have he : -Real.pi * (180 / Real.pi) = -180 := by field_simp <;> ring
    rw [he] at h
    exact h
  have hA2 : atan2R (y : ℝ) (x : ℝ) * (180 / Real.pi) ≤ 180 := by
    have h := mul_le_mul_of_nonneg_right hu hd.le
    have he : Real.pi * (180 / Real.pi) = 180 := by field_simp <;> ring
    rw [he] at h
    exact h
  dsimp only
  by_cases h : atan2R (y : ℝ) (x : ℝ) * (180 / Real.pi) < 0
  · rw [if_pos h]
    constructor <;> linarith
  · rw [if_neg h]
    push_neg at h
    constructor <;> linarith

lemma shadowAngleDeg_right : shadowAngleDeg 10 0 = 0 := by
  have ha : atan2R ((0 : ℚ) : ℝ) ((10 : ℚ) : ℝ) = 0 := by
    norm_num [atan2R, Real.arctan_zero]
  rw [shadowAngleDeg]
  rw [ha]
  norm_num

lemma shadowAngleDeg_down : shadowAngleDeg 0 10 = 90 := by
  have hpne := Real.pi_ne_zero
  have ha : atan2R ((10 : ℚ) : ℝ) ((0 : ℚ) : ℝ) = Real.pi / 2 := by
    norm_num [atan2R]
  rw [shadowAngleDeg]
  rw [ha]
  have he : Real.pi / 2 * (180 / Real.pi) = 90 := by field_simp; ring
  rw [he]
  norm_num

lemma shadowDistance_right : shadowDistance 10 0 = 10 := by
  rw [shadowDistance]
  push_cast
  rw [show (10 : ℝ) * 10 + 0 * 0 = 10 ^ 2 by norm_num]
  exact Real.sqrt_sq (by norm_num)

unseal Rat.mul Rat.inv Rat.add Rat.sub in
/-- **C5** — `getVisibleShadow` converts the first visible layer's
`(color, dx, dy, blur)` to polar form (`offset` from `sqrt(dx²+dy²)`, `angle`
from `atan2(dy, dx)` with the `+360` normalization); the layer scan skips
`rgba(0, 0, 0, 0)` layers and honors only the first visible one; under exact
real semantics the normalized angle always lies in `[0, 360)`, and
`dx=10, dy=0` gives angle `0` and distance `10` while `dx=0, dy=10` gives
angle `90`. -/
theorem shadow_polar_conversion (menv : MathEnv) (cenv : CanvasEnv)
    (scale : ℚ) (s c : String) (x y b : ℚ)
    (h : shadowFirstVisible s = some (c, x, y, b)) :
    getVisibleShadow menv cenv s scale = some
      { type := "outer"
        angle := if menv.atan2deg y x < 0 then menv.atan2deg y x + 360
          else menv.atan2deg y x
        blur := b * (3 / 4) * scale
        offset := menv.sqrt (x * x + y * y) * (3 / 4) * scale
        color := (parseColor cenv c).hex.getD "000000"
        opacity := (parseColor cenv c).opacity } ∧
    shadowFirstVisible
        "rgba(0, 0, 0, 0) 5px 5px 5px, rgba(2, 3, 4, 0.5) 10px 0px 8px" =
      some ("rgba(2, 3, 4, 0.5)", 10, 0, 8) ∧
    (∀ dx dy : ℚ, 0 ≤ shadowAngleDeg dx dy ∧ shadowAngleDeg dx dy < 360) ∧
    shadowAngleDeg 10 0 = 0 ∧ shadowAngleDeg 0 10 = 90 ∧
    shadowDistance 10 0 = 10 := by
  refine ⟨?_, by decide, shadowAngleDeg_mem, shadowAngleDeg_right,
    shadowAngleDeg_down, shadowDistance_right⟩
  rw [getVisibleShadow, h]
  rfl

unseal Rat.mul Rat.inv Rat.add Rat.sub in
/-- Witness for C5: the two-layer shadow string under the stub math
environment. -/
theorem shadow_polar_conversion_witness :
    getVisibleShadow zeroMathEnv idCanvasEnv
      "rgba(0, 0, 0, 0) 5px 5px 5px, rgba(2, 3, 4, 0.5) 10px 0px 8px" 1 = some
      { type := "outer"
        angle := if zeroMathEnv.atan2deg 0 10 < 0 then zeroMathEnv.atan2deg 0 10 + 360
          else zeroMathEnv.atan2deg 0 10
        blur := 8 * (3 / 4) * 1
        offset := zeroMathEnv.sqrt (10 * 10 + 0 * 0) * (3 / 4) * 1
        color := (parseColor idCanvasEnv "rgba(2, 3, 4, 0.5)").hex.getD "000000"
        opacity := (parseColor idCanvasEnv "rgba(2, 3, 4, 0.5)").opacity } ∧
    shadowFirstVisible
        "rgba(0, 0, 0, 0) 5px 5px 5px, rgba(2, 3, 4, 0.5) 10px 0px 8px" =
      some ("rgba(2, 3, 4, 0.5)", 10, 0, 8) ∧
    (∀ dx dy : ℚ, 0 ≤ shadowAngleDeg dx dy ∧ shadowAngleDeg dx dy < 360) ∧
    shadowAngleDeg 10 0 = 0 ∧ shadowAngleDeg 0 10 = 90 ∧
    shadowDistance 10 0 = 10 :=
  shadow_polar_conversion zeroMathEnv idCanvasEnv 1
    "rgba(0, 0, 0, 0) 5px 5px 5px, rgba(2, 3, 4, 0.5) 10px 0px 8px"
    "rgba(2, 3, 4, 0.5)" 10 0 8 (by decide)

lemma itemLe_antisymm_key {a b : RenderItem} (h1 : itemLe a b)
    (h2 : itemLe b a) : itemKey a = itemKey b := by
  unfold itemLe at h1 h2
  unfold itemKey
  rw [Prod.mk.injEq]
  constructor <;> omega

lemma sorted_perm_key_nodup_eq :
    ∀ (l₁ l₂ : List RenderItem), l₁.Perm l₂ → l₁.Sorted itemLe →
      l₂.Sorted itemLe → (l₁.map itemKey).Nodup → l₁ = l₂
  | [], _, hp, _, _, _ => (hp.symm.eq_nil).symm
  | a :: t, l₂, hp, hs1, hs2, hnd => by
    cases l₂ with
    | nil => exact absurd hp.eq_nil (by simp)
    | cons b t₂ =>
      by_cases hab : a = b
      · subst hab
        have hteq := sorted_perm_key_nodup_eq t t₂ hp.cons_inv hs1.of_cons
          hs2.of_cons (List.nodup_cons.mp hnd).2
        rw [hteq]
      · have hbmem : b ∈ a :: t := hp.symm.subset (List.mem_cons_self b t₂)
        have hamem : a ∈ b :: t₂ := hp.subset (List.mem_cons_self a t)
        have hbt : b ∈ t := by
          rcases List.mem_cons.mp hbmem with h | h
          · exact absurd h.symm hab
          · exact h
        have hat : a ∈ t₂ := by
          rcases List.mem_cons.mp hamem with h | h
          · exact absurd h hab
          · exact h
        have h1 : itemLe a b := List.rel_of_sorted_cons hs1 b hbt
        have h2 : itemLe b a := List.rel_of_sorted_cons hs2 a hat
        have hk := itemLe_antisymm_key h1 h2
        exfalso
        have hmem : itemKey a ∈ t.map itemKey := by
          rw [hk]
          exact List.mem_map_of_mem itemKey hbt
        exact (List.nodup_cons.mp hnd).1 hmem

lemma finalizeQueue_sorted (ext : Ext) (q : List RenderItem) :
    (finalizeQueue ext q).Sorted itemLe := List.sorted_insertionSort _ _

lemma finalizeQueue_perm_invariant (ext : Ext) {q q' : List RenderItem}
    (hperm : q.Perm q')
    (hkeys : (((q.map (runJob ext)).filter keepItem).map itemKey).Nodup) :
    finalizeQueue ext q = finalizeQueue ext q' := by
  unfold finalizeQueue sortQueue
  apply sorted_perm_key_nodup_eq
  · exact (List.perm_insertionSort _ _).trans
      (((hperm.map _).filter _).trans (List.perm_insertionSort _ _).symm)
  · exact List.sorted_insertionSort _ _
  · exact List.sorted_insertionSort _ _
  · exact (((List.perm_insertionSort itemLe _).map itemKey).nodup_iff).mpr hkeys

lemma runJob_key (e : Ext) (it : RenderItem) :
    itemKey (runJob e it) = itemKey it := by
  rcases hk : it.jobKey with _ | k
  · simp [runJob, hk]
  · rcases hj : e.jobs k with _ | s
    · simp [runJob, itemKey, hk, hj]
    · rcases hkind : it.jobKind <;> simp [runJob, itemKey, hk, hj, hkind] <;>
        split <;> exact ⟨rfl, rfl⟩

unseal Rat.mul Rat.inv Rat.add Rat.sub in
/-- **C1** — The final queue handed to the document builder is sorted by
`(stackOrder, traversalIndex)`; the result is independent of queue insertion
order (any permutation of the pre-sort queue with distinct keys finalizes
identically) and of deferred-job completion order (a job never changes its
item's key, so the ordering is fixed by the synchronous walk); concretely,
with siblings of stack order `5` then `0` in document order the `0` item
comes first, and swapping the document order keeps the `0` item first with
the tie key being the traversal index. -/
theorem final_queue_ordering (ext : Ext) (gopts : GlobalOptions)
    (outerChain : List ElemData) (root : DomNode) (q q' : List RenderItem)
    (hperm : q.Perm q')
    (hkeys : (((q.map (runJob ext)).filter keepItem).map itemKey).Nodup) :
    (processSlideQueue ext gopts outerChain root).Sorted itemLe ∧
    finalizeQueue ext q = finalizeQueue ext q' ∧
    (∀ (e : Ext) (it : RenderItem), itemKey (runJob e it) = itemKey it) ∧
    (∀ a b : RenderItem, a.zIndex = b.zIndex →
      (itemLe a b ↔ a.domOrder ≤ b.domOrder)) ∧
    (processSlideQueue extA gopts0 [] c1Root).map itemKey = [(0, 2), (5, 1)] ∧
    (processSlideQueue extA gopts0 [] c1RootSwapped).map itemKey =
      [(0, 1), (5, 2)] := by
  refine ⟨?_, finalizeQueue_perm_invariant ext hperm hkeys, runJob_key, ?_,
    by decide, by decide⟩
  · unfold processSlideQueue finalizeQueue sortQueue
    exact List.sorted_insertionSort _ _
  · intro a b h
    unfold itemLe
    omega

/-- Witness for C1: two concrete shape items with keys `(5, 1)` and `(0, 2)`
inserted in both orders. -/
theorem final_queue_ordering_witness :
    (processSlideQueue extA gopts0 [] c1Root).Sorted itemLe ∧
    finalizeQueue extA
        [mkShapeItem 5 1 .rect (baseOpts 0 0 1 1),
         mkShapeItem 0 2 .rect (baseOpts 0 0 1 1)] =
      finalizeQueue extA
        [mkShapeItem 0 2 .rect (baseOpts 0 0 1 1),
         mkShapeItem 5 1 .rect (baseOpts 0 0 1 1)] ∧
    (∀ (e : Ext) (it : RenderItem), itemKey (runJob e it) = itemKey it) ∧
    (∀ a b : RenderItem, a.zIndex = b.zIndex →
      (itemLe a b ↔ a.domOrder ≤ b.domOrder)) ∧
    (processSlideQueue extA gopts0 [] c1Root).map itemKey = [(0, 2), (5, 1)] ∧
    (processSlideQueue extA gopts0 [] c1RootSwapped).map itemKey =
      [(0, 1), (5, 2)] :=
  final_queue_ordering extA gopts0 [] c1Root
    [mkShapeItem 5 1 .rect (baseOpts 0 0 1 1),
     mkShapeItem 0 2 .rect (baseOpts 0 0 1 1)]
    [mkShapeItem 0 2 .rect (baseOpts 0 0 1 1),
     mkShapeItem 5 1 .rect (baseOpts 0 0 1 1)]
    (List.Perm.swap (mkShapeItem 0 2 .rect (baseOpts 0 0 1 1))
      (mkShapeItem 5 1 .rect (baseOpts 0 0 1 1)) [])
    (by decide)

lemma orderedInsert_forall_le {a : RenderItem} {l : List RenderItem}
    (h : ∀ c ∈ l, itemLe a c) : List.orderedInsert itemLe a l = a :: l := by
  cases l with
  | nil => rfl
  | cons b t =>
    simp only [List.orderedInsert]
    rw [if_pos (h b (List.mem_cons_self b t))]

lemma filter_orderedInsert (p : RenderItem → Bool) (a : RenderItem) :
    ∀ (l : List RenderItem), l.Sorted itemLe →
      (List.orderedInsert itemLe a l).filter p =
        if p a then List.orderedInsert itemLe a (l.filter p) else l.filter p := by
  intro l
  induction l with
  | nil =>
    intro _
    by_cases hpa : p a = true <;> simp [List.orderedInsert, hpa]
  | cons b t ih =>
    intro hs
    have hst := List.Sorted.of_cons hs
    have hbt := List.rel_of_sorted_cons hs
    by_cases hab : itemLe a b
    · by_cases hpa : p a = true
      · by_cases hpb : p b = true
        · simp [List.orderedInsert, if_pos hab, hpa, hpb]
        · simp only [List.orderedInsert, if_pos hab, List.filter_cons, hpa, hpb,
            Bool.false_eq_true, if_false, if_true]
          rw [orderedInsert_forall_le fun c hc =>
            IsTrans.trans _ _ _ hab (hbt c (List.mem_of_mem_filter hc))]
      · simp [List.orderedInsert, if_pos hab, hpa]
    · by_cases hpb : p b = true
      · by_cases hpa : p a = true
        · simp [List.orderedInsert, if_neg hab, hpa, hpb, ih hst]
        · simp [List.orderedInsert, if_neg hab, hpa, hpb, ih hst]
      · simp [List.orderedInsert, if_neg hab, hpb, ih hst]

lemma insertionSort_filter (p : RenderItem → Bool) :
    ∀ (l : List RenderItem),
      (List.insertionSort itemLe l).filter p =
        List.insertionSort itemLe (l.filter p)
  | [] => rfl
  | a :: t => by
    rw [List.insertionSort]
    rw [filter_orderedInsert p a _ (List.sorted_insertionSort itemLe t)]
    rw [List.filter_cons]
    by_cases hpa : p a = true
    · rw [if_pos hpa, if_pos hpa, insertionSort_filter p t, List.insertionSort]
    · rw [if_neg hpa, if_neg hpa, insertionSort_filter p t]

lemma runJob_jobKey (e : Ext) (it : RenderItem) :
    (runJob e it).jobKey = it.jobKey := by
  rcases hk : it.jobKey with _ | k
  · simp [runJob, hk]
  · rcases hj : e.jobs k with _ | s
    · simp [runJob, hk, hj]
    · rcases hkind : it.jobKind <;> simp [runJob, hk, hj, hkind] <;>
        split <;> rfl

lemma runJob_fail {e : Ext} {k : ℕ} (h : e.jobs k = none) {it : RenderItem}
    (hit : it.jobKey = some k) : runJob e it = { it with skip := true } := by
  simp [runJob, hit, h]

lemma keepItem_skip (it : RenderItem) :
    keepItem { it with skip := true } = false := rfl

lemma runJob_agree {e e' : Ext} {it : RenderItem}
    (h : ∀ j, it.jobKey = some j → e'.jobs j = e.jobs j) :
    runJob e' it = runJob e it := by
  rcases hk : it.jobKey with _ | k
  · simp [runJob, hk]
  · simp [runJob, hk, h k hk]

lemma failJob_map_filter (ext : Ext) (k : ℕ) (q : List RenderItem) :
    (q.map (runJob (failJob ext k))).filter keepItem =
      ((q.map (runJob ext)).filter keepItem).filter
        (fun it => decide (it.jobKey ≠ some k)) := by
  induction q with
  | nil => rfl
  | cons a t ih =>
    simp only [List.map_cons, List.filter_cons]
    by_cases hak : a.jobKey = some k
    · have h1 : runJob (failJob ext k) a = { a with skip := true } :=
        runJob_fail (by simp [failJob]) hak
      have h2 : (runJob ext a).jobKey = some k := by rw [runJob_jobKey]; exact hak
      rw [h1, keepItem_skip]
      rw [if_neg Bool.false_ne_true]
      by_cases hkeep : keepItem (runJob ext a) = true
      · rw [if_pos hkeep, List.filter_cons]
        have h3 : ¬(decide ((runJob ext a).jobKey ≠ some k) = true) := by simp [h2]
        rw [if_neg h3]
        exact ih
      · rw [if_neg hkeep]
        exact ih
    · have h1 : runJob (failJob ext k) a = runJob ext a := by
        apply runJob_agree
        intro j hj
        have hjk : j ≠ k := fun h => hak (h ▸ hj)
        simp [failJob, hjk]
      have h2 : decide ((runJob ext a).jobKey ≠ some k) = true := by
        rw [runJob_jobKey]
        simp [hak]
      rw [h1]
      by_cases hkeep : keepItem (runJob ext a) = true
      · rw [if_pos hkeep, if_pos hkeep, List.filter_cons, if_pos h2, ih]
      · rw [if_neg hkeep, if_neg hkeep]
        exact ih

/-- **C2** — Removing one node's asset production makes only that node's item
be marked `skip` and silently dropped: the final queue is exactly the
unimpaired final queue with the failed job's items filtered out (every other
item's presence and relative order is unchanged), a failing job rewrites only
its own item, jobs of other items run identically, and a skipped item never
survives the cleanup filter. -/
theorem job_failure_isolation (ext : Ext) (k : ℕ) (q : List RenderItem) :
    finalizeQueue (failJob ext k) q =
      (finalizeQueue ext q).filter (fun it => decide (it.jobKey ≠ some k)) ∧
    (∀ it : RenderItem, it.jobKey = some k →
      runJob (failJob ext k) it = { it with skip := true }) ∧
    (∀ it : RenderItem, it.jobKey ≠ some k →
      runJob (failJob ext k) it = runJob ext it) ∧
    (∀ it : RenderItem, keepItem { it with skip := true } = false) := by
  refine ⟨?_, ?_, ?_, fun it => rfl⟩
  · unfold finalizeQueue sortQueue
    rw [failJob_map_filter]
    exact (insertionSort_filter _ _).symm
  · intro it hit
    exact runJob_fail (by simp [failJob]) hit
  · intro it hit
    apply runJob_agree
    intro j hj
    have hjk : j ≠ k := fun h => hit (h ▸ hj)
    simp [failJob, hjk]

/-- Witness for C2: an image item bound to job `7` next to a plain shape
item, with job `7`'s production removed. -/
theorem job_failure_isolation_witness :
    finalizeQueue (failJob extA 7)
        [mkImageItem 0 3 (baseOpts 0 0 1 1) (some 7) .plainData,
         mkShapeItem 0 1 .rect (baseOpts 0 0 1 1)] =
      (finalizeQueue extA
        [mkImageItem 0 3 (baseOpts 0 0 1 1) (some 7) .plainData,
         mkShapeItem 0 1 .rect (baseOpts 0 0 1 1)]).filter
        (fun it => decide (it.jobKey ≠ some 7)) ∧
    runJob (failJob extA 7) (mkImageItem 0 3 (baseOpts 0 0 1 1) (some 7) .plainData) =
      { mkImageItem 0 3 (baseOpts 0 0 1 1) (some 7) .plainData with skip := true } ∧
    runJob (failJob extA 7) (mkShapeItem 0 1 .rect (baseOpts 0 0 1 1)) =
      runJob extA (mkShapeItem 0 1 .rect (baseOpts 0 0 1 1)) ∧
    keepItem { mkImageItem 0 3 (baseOpts 0 0 1 1) (some 7) .plainData with
      skip := true } = false := by
  have h := job_failure_isolation extA 7
    [mkImageItem 0 3 (baseOpts 0 0 1 1) (some 7) .plainData,
     mkShapeItem 0 1 .rect (baseOpts 0 0 1 1)]
  exact ⟨h.1, h.2.1 _ rfl, h.2.2.1 _ (by decide), h.2.2.2 _⟩

unseal Rat.mul Rat.inv Rat.add Rat.sub in
/-- Counterexample to C6 as stated: a node of zero visual extent
(`0.3px × 10px`, far below the `0.5px` cutoff) that is not hidden by style
does *not* have its subtree pruned — its child still contributes an item
(traversal index `2`) to the final queue. -/
theorem node_pruning_semantics_cex :
    c6ZeroParentData.rect.width < 1 / 2 ∧
    c6ZeroParentData.style.display ≠ "none" ∧
    c6ZeroParentData.style.visibility ≠ "hidden" ∧
    c6ZeroParentData.style.opacity ≠ "0" ∧
    (processSlideQueue extA gopts0 [] c6Root).map (fun it => it.domOrder) =
      [2] := by
  refine ⟨by decide, by decide, by decide, by decide, by decide⟩

/-- **C6 (amended)** — `display:none`, `visibility:hidden` and `opacity:0`
prune the node *and its whole subtree* before classification; but a
zero-visual-extent node is only dropped itself (`prepareRenderItem` returns
nothing for it): its children are still visited and may contribute items. -/
theorem node_pruning_semantics (ext : Ext) (cfg : LayoutConfig)
    (gopts : GlobalOptions) (d : ElemData) (cs : List DomNode)
    (parent : Option DomNode) (chain : List ElemData) (parentZ : ℤ)
    (counter : ℕ)
    (hhid : d.style.display = "none" ∨ d.style.visibility = "hidden" ∨
      d.style.opacity = "0") :
    collect ext cfg gopts (.elem d cs) parent chain parentZ counter =
      ([], counter + 1) ∧
    (∀ (d' : ElemData) (cs' : List DomNode) (parent' : Option DomNode)
      (chain' : List ElemData) (z' : ℤ) (c' : ℕ),
      d'.style.display ≠ "none" → d'.style.visibility ≠ "hidden" →
      d'.style.opacity ≠ "0" →
      (d'.rect.width < 1 / 2 ∨ d'.rect.height < 1 / 2) →
      collect ext cfg gopts (.elem d' cs') parent' chain' z' c' =
        collectList ext cfg gopts cs' (some (.elem d' cs')) (d' :: chain')
          (if d'.style.zIndex ≠ "auto" then (jsParseInt d'.style.zIndex).getD 0
            else z') (c' + 1)) := by
  constructor
  · simp only [collect]
    rw [if_pos ?_]
    rcases hhid with h | h | h <;> simp [h]
  · intro d' cs' parent' chain' z' c' h1 h2 h3 hz
    simp only [collect, prepareRenderItem]
    rw [if_neg ?hcond]
    case hcond => simp [h1, h2, h3]
    have hprep : prepareElem ext.cenv ext.menv (ext.rand c') cfg gopts parent'
        chain' d' cs' c'
        (if d'.style.zIndex ≠ "auto" then (jsParseInt d'.style.zIndex).getD 0
          else z') = none := by
      unfold prepareElem
      rw [if_pos ?_]
      simp only [Bool.or_eq_true, decide_eq_true_eq]
      rcases hz with h | h
      · exact Or.inl h
      · exact Or.inr h
    rw [hprep]

/-- Witness for C6 (amended): a `display:none` element prunes its subtree,
while the `0.3px`-wide parent of `c6Root` recurses into its child list. -/
theorem node_pruning_semantics_witness :
    collect extA ⟨0, 0, 1, 0, 0⟩ gopts0
        (.elem (mkElem "DIV" { baseStyle with display := "none" }
          ⟨0, 0, 100, 50⟩) [c6Child]) none [] 0 0 = ([], 1) ∧
    collect extA ⟨0, 0, 1, 0, 0⟩ gopts0 (.elem c6ZeroParentData [c6Child])
        none [] 0 5 =
      collectList extA ⟨0, 0, 1, 0, 0⟩ gopts0 [c6Child]
        (some (.elem c6ZeroParentData [c6Child])) [c6ZeroParentData]
        (if c6ZeroParentData.style.zIndex ≠ "auto" then
          (jsParseInt c6ZeroParentData.style.zIndex).getD 0 else 0) 6 := by
  have h := node_pruning_semantics extA ⟨0, 0, 1, 0, 0⟩ gopts0
    (mkElem "DIV" { baseStyle with display := "none" } ⟨0, 0, 100, 50⟩)
    [c6Child] none [] 0 0 (Or.inl rfl)
  exact ⟨h.1, h.2 c6ZeroParentData [c6Child] none [] 0 5 (by decide) (by decide)
    (by decide) (Or.inl (by norm_num [c6ZeroParentData, mkElem]))⟩

mutual
theorem collect_counter_bounds (ext : Ext) (cfg : LayoutConfig)
    (gopts : GlobalOptions) :
    ∀ (node : DomNode) (parent : Option DomNode) (chain : List ElemData)
      (z : ℤ) (c : ℕ),
      c + 1 ≤ (collect ext cfg gopts node parent chain z c).2 ∧
      (collect ext cfg gopts node parent chain z c).2 ≤ c + nodeSize node
  | .text v r, parent, chain, z, c => by
    constructor
    · simp [collect]
    · simp [collect, nodeSize]
  | .elem d cs, parent, chain, z, c => by
    obtain ⟨h1, h2⟩ := collectList_counter_bounds ext cfg gopts cs
      (some (.elem d cs)) (d :: chain)
      (if d.style.zIndex ≠ "auto" then (jsParseInt d.style.zIndex).getD 0 else z)
      (c + 1)
    rcases hcl : collectList ext cfg gopts cs (some (.elem d cs)) (d :: chain)
      (if d.style.zIndex ≠ "auto" then (jsParseInt d.style.zIndex).getD 0 else z)
      (c + 1) with ⟨ci, c2⟩
    rw [hcl] at h1 h2
    simp only [collect, hcl]
    split
    · constructor <;> simp [nodeSize] <;> omega
    · split
      · split
        · constructor <;> simp [nodeSize] <;> omega
        · constructor <;> simp [nodeSize] <;> omega
      · constructor <;> simp [nodeSize] <;> omega

theorem collectList_counter_bounds (ext : Ext) (cfg : LayoutConfig)
    (gopts : GlobalOptions) :
    ∀ (cs : List DomNode) (parent : Option DomNode) (chain : List ElemData)
      (z : ℤ) (c : ℕ),
      c ≤ (collectList ext cfg gopts cs parent chain z c).2 ∧
      (collectList ext cfg gopts cs parent chain z c).2 ≤ c + nodeListSize cs
  | [], parent, chain, z, c => by
    constructor <;> simp [collectList, nodeListSize]
  | n :: rest, parent, chain, z, c => by
    obtain ⟨h1, h2⟩ := collect_counter_bounds ext cfg gopts n parent chain z c
    rcases hcol : collect ext cfg gopts n parent chain z c with ⟨i1, c1⟩
    rw [hcol] at h1 h2
    obtain ⟨h3, h4⟩ := collectList_counter_bounds ext cfg gopts rest parent
      chain z c1
    rcases hrest : collectList ext cfg gopts rest parent chain z c1 with ⟨i2, c2⟩
    rw [hrest] at h3 h4
    have hfin : (collectList ext cfg gopts (n :: rest) parent chain z c).2 = c2 := by
      simp only [collectList, hcol, hrest]
    rw [hfin]
    simp only [nodeListSize]
    omega
end

mutual
theorem collect_congr (ext ext' : Ext) (cfg : LayoutConfig)
    (gopts : GlobalOptions) (hc : ext'.cenv = ext.cenv)
    (hm : ext'.menv = ext.menv) :
    ∀ (node : DomNode) (parent : Option DomNode) (chain : List ElemData)
      (z : ℤ) (c : ℕ),
      (∀ j, c ≤ j → j < c + nodeSize node → ext'.rand j = ext.rand j) →
      collect ext' cfg gopts node parent chain z c =
        collect ext cfg gopts node parent chain z c
  | .text v r, parent, chain, z, c, hr => by
    simp only [collect]
    rw [hc, hm, hr c le_rfl (by simp [nodeSize])]
  | .elem d cs, parent, chain, z, c, hr => by
    have hrc : ext'.rand c = ext.rand c :=
      hr c le_rfl (by simp [nodeSize])
    have hcl := collectList_congr ext ext' cfg gopts hc hm cs
      (some (.elem d cs)) (d :: chain)
      (if d.style.zIndex ≠ "auto" then (jsParseInt d.style.zIndex).getD 0 else z)
      (c + 1)
      (fun j hj1 hj2 => hr j (by omega)
        (by simp only [nodeSize]; omega))
    simp only [collect]
    simp only [hc, hm, hrc, hcl]

theorem collectList_congr (ext ext' : Ext) (cfg : LayoutConfig)
    (gopts : GlobalOptions) (hc : ext'.cenv = ext.cenv)
    (hm : ext'.menv = ext.menv) :
    ∀ (cs : List DomNode) (parent : Option DomNode) (chain : List ElemData)
      (z : ℤ) (c : ℕ),
      (∀ j, c ≤ j → j < c + nodeListSize cs → ext'.rand j = ext.rand j) →
      collectList ext' cfg gopts cs parent chain z c =
        collectList ext cfg gopts cs parent chain z c
  | [], parent, chain, z, c, hr => rfl
  | n :: rest, parent, chain, z, c, hr => by
    have h1 := collect_congr ext ext' cfg gopts hc hm n parent chain z c
      (fun j hj1 hj2 => hr j hj1 (by simp only [nodeListSize]; omega))
    obtain ⟨hb1, hb2⟩ := collect_counter_bounds ext cfg gopts n parent chain z c
    simp only [collectList, h1]
    rcases hcol : collect ext cfg gopts n parent chain z c with ⟨i1, c1⟩
    rw [hcol] at hb1 hb2
    dsimp only
    have h2 := collectList_congr ext ext' cfg gopts hc hm rest parent chain z c1
      (fun j hj1 hj2 => hr j (by omega) (by simp only [nodeListSize]; omega))
    simp only [h2]
end

lemma finalizeQueue_congr (ext ext' : Ext)
    (hj : ∀ j, ext'.jobs j = ext.jobs j) (q : List RenderItem) :
    finalizeQueue ext' q = finalizeQueue ext q := by
  unfold finalizeQueue
  have hmap : q.map (runJob ext') = q.map (runJob ext) :=
    List.map_congr_left fun it _ => runJob_agree fun j _ => hj j
  rw [hmap]

unseal Rat.mul Rat.inv Rat.add Rat.sub in
set_option maxRecDepth 8000 in
/-- Counterexample to C8 as stated: two runs on the same input tree and
configuration whose external worlds differ only in the `Math.random` clip-id
stream (canvas, math and asset production identical) produce different
draw-command sequences — the composite-border SVG payload embeds the
per-run random clip identifier. -/
theorem rerun_byte_identity_cex :
    extB.cenv = extA.cenv ∧ extB.menv = extA.menv ∧
    (∀ j, extB.jobs j = extA.jobs j) ∧
    processSlideQueue extA gopts0 [] c8Root ≠
      processSlideQueue extB gopts0 [] c8Root :=
  ⟨rfl, rfl, fun _ => rfl, by decide⟩

/-- **C8 (amended)** — The pipeline is deterministic in its external
collaborators: re-running on an unchanged input tree and configuration yields
a byte-identical ordered draw-command sequence whenever the canvas and math
collaborators, the asset productions, and the random clip-identifier stream
(on the traversal indices the walk can consume, i.e. below the node count)
are unchanged.  Byte-identity fails across ordinary re-runs only because
`Math.random` differs, as the counterexample shows. -/
theorem rerun_determinism (ext ext' : Ext) (gopts : GlobalOptions)
    (chain : List ElemData) (root : DomNode)
    (hc : ext'.cenv = ext.cenv) (hm : ext'.menv = ext.menv)
    (hj : ∀ j, ext'.jobs j = ext.jobs j)
    (hr : ∀ j, j < nodeSize root → ext'.rand j = ext.rand j) :
    processSlideQueue ext' gopts chain root =
      processSlideQueue ext gopts chain root := by
  unfold processSlideQueue
  dsimp only
  rw [collect_congr ext ext' _ gopts hc hm root none chain 0 0
    (fun j _ hj2 => hr j (by simpa using hj2))]
  simp only [finalizeQueue_congr ext ext' hj]

/-- Witness for C8 (amended): perturbing the random stream only beyond the
two consumed indices leaves the `c8Root` run unchanged. -/
theorem rerun_determinism_witness :
    processSlideQueue
        { extA with rand := fun j => if j < 2 then extA.rand j
            else "clip_zzzzzzzzz" } gopts0 [] c8Root =
      processSlideQueue extA gopts0 [] c8Root :=
  rerun_determinism extA
    { extA with rand := fun j => if j < 2 then extA.rand j
        else "clip_zzzzzzzzz" } gopts0 [] c8Root rfl rfl (fun _ => rfl)
    (by
      intro j hj
      have hs : nodeSize c8Root = 2 := by decide
      rw [hs] at hj
      exact if_pos hj)

lemma mem_ite_singleton {c : Prop} [Decidable c] {x it : RenderItem}
    (h : it ∈ (if c then [x] else [])) : it = x := by
  split at h
  · simpa using h
  · simp at h

lemma mem_compositeBorderItems {sides : BorderSides} {x y w h scale : ℚ}
    {z : ℤ} {d : ℕ} {it : RenderItem}
    (hit : it ∈ createCompositeBorderItems sides x y w h scale z d) :
    it.zIndex = z + 1 ∧ it.domOrder = d ∧ it.itype = .shape := by
  unfold createCompositeBorderItems at hit
  dsimp only at hit
  simp only [List.mem_append] at hit
  rcases hit with ((hm | hm) | hm) | hm <;>
    · rw [mem_ite_singleton hm]
      exact ⟨rfl, rfl, rfl⟩

/-- **C10** — Every synthesized overlay that must draw above its node's base
item carries stack order exactly one above the node's effective stack order
and keeps the node's traversal index: the per-side composite-border
rectangles, the text overlay of the gradient/blur branch, the list text over
the list background shape, and the composite-border SVG image appended by the
standard branch. -/
theorem overlay_stack_order (sides : BorderSides) (x y w h scale : ℚ)
    (z : ℤ) (d : ℕ) :
    (∀ it ∈ createCompositeBorderItems sides x y w h scale z d,
      it.zIndex = z + 1 ∧ it.domOrder = d) ∧
    (∀ (rotation padIn : ℚ) (bgData : Option String)
      (tp : Option TextPayload) (cb : Option BorderSides),
      ∀ it ∈ gradientBranchItems z d rotation x y w h padIn bgData tp cb scale,
        it.itype = .text → it.zIndex = z + 1 ∧ it.domOrder = d) ∧
    (∀ (bgColorObj : ColorPair) (listItems : List (String × TextOpts)),
      ∀ it ∈ listBranchItems z d x y w h bgColorObj listItems,
        it.itype = .text → it.zIndex = z + 1 ∧ it.domOrder = d) ∧
    (∀ (rotation widthPx heightPx : ℚ) (style : CStyle)
      (bgColorObj : ColorPair) (safeOpacity : ℚ)
      (useSolidFill hasPartialBorderRadius : Bool)
      (shadowOpt : Option ShadowOpts) (hasShadow : Bool)
      (tp : Option TextPayload) (clipId : String),
      (stdBranchItems z d rotation x y w h widthPx heightPx style bgColorObj
          safeOpacity useSolidFill hasPartialBorderRadius (.composite sides)
          shadowOpt hasShadow tp clipId).getLast? =
        some (mkImageItem (z + 1) d
          { baseOpts x y w h with
              data := some (generateCompositeBorderSVG widthPx heightPx
                (pf0 style.borderRadius) sides clipId),
              rotate := some rotation } none .plainData)) := by
  refine ⟨?_, ?_, ?_, ?_⟩
  · intro it hit
    exact ⟨(mem_compositeBorderItems hit).1, (mem_compositeBorderItems hit).2.1⟩
  · intro rotation padIn bgData tp cb it hmem htext
    unfold gradientBranchItems at hmem
    simp only [List.mem_append] at hmem
    rcases hmem with (hm | hm) | hm
    · rcases bgData with _ | bg
      · simp at hm
      · simp at hm
        subst hm
        simp [mkImageItem] at htext
    · rcases tp with _ | tpv
      · simp at hm
      · simp at hm
        subst hm
        exact ⟨rfl, rfl⟩
    · rcases cb with _ | sidesv
      · simp at hm
      · simp only [] at hm
        have hsh := (mem_compositeBorderItems hm).2.2
        rw [hsh] at htext
        simp at htext
  · intro bgColorObj listItems it hmem htext
    unfold listBranchItems at hmem
    simp only [List.mem_append] at hmem
    rcases hmem with hm | hm
    · rw [mem_ite_singleton hm] at htext
      simp [mkShapeItem] at htext
    · simp only [List.mem_singleton] at hm
      subst hm
      exact ⟨rfl, rfl⟩
  · intro rotation widthPx heightPx style bgColorObj safeOpacity useSolidFill
      hasPartialBorderRadius shadowOpt hasShadow tp clipId
    unfold stdBranchItems
    dsimp only
    exact List.getLast?_concat _

unseal Rat.mul Rat.inv Rat.add Rat.sub in
/-- Witness for C10: a uniform red 2px side set at stack order `3`, traversal
index `5`. -/
theorem overlay_stack_order_witness :
    ((mkShapeItem (3 + 1) 5 .rect
        { baseOpts 0 0 1 ((2 : ℚ) * (1 / 96) * 1) with
            fill := some ⟨some "FF0000", none, none⟩ }).zIndex = 3 + 1 ∧
      (mkShapeItem (3 + 1) 5 .rect
        { baseOpts 0 0 1 ((2 : ℚ) * (1 / 96) * 1) with
            fill := some ⟨some "FF0000", none, none⟩ }).domOrder = 5) ∧
    (stdBranchItems 3 5 0 0 0 1 1 100 50 baseStyle ⟨none, 0⟩ 1 false false
        (.composite ⟨⟨2, "solid", some "FF0000"⟩, ⟨2, "solid", some "FF0000"⟩,
          ⟨2, "solid", some "FF0000"⟩, ⟨2, "solid", some "FF0000"⟩⟩)
        none false none "clip_x").getLast? =
      some (mkImageItem (3 + 1) 5
        { baseOpts 0 0 1 1 with
            data := some (generateCompositeBorderSVG 100 50
              (pf0 baseStyle.borderRadius)
              ⟨⟨2, "solid", some "FF0000"⟩, ⟨2, "solid", some "FF0000"⟩,
                ⟨2, "solid", some "FF0000"⟩, ⟨2, "solid", some "FF0000"⟩⟩
              "clip_x"),
            rotate := some 0 } none .plainData) := by
  have h := overlay_stack_order
    ⟨⟨2, "solid", some "FF0000"⟩, ⟨2, "solid", some "FF0000"⟩,
      ⟨2, "solid", some "FF0000"⟩, ⟨2, "solid", some "FF0000"⟩⟩ 0 0 1 1 1 3 5
  exact ⟨h.1 _ (by decide),
    h.2.2.2 0 100 50 baseStyle ⟨none, 0⟩ 1 false false none false none "clip_x"⟩

end DomToPptx
